import Mathlib

/-
  Verification development for the smart-shell agent
  (src/agent/smart_shell_agent.py): the command extractor, the execution
  dispatcher with its action registry, the confirmation gate inside the
  destructive handlers, the orchestration loop, and the streaming provider
  adapter.  Python data is embedded shallowly: JSON values as an inductive
  type, the mutable agent object as an explicit state record, blocking
  input() as a queue of pending answers, and external I/O (subprocesses,
  the real file system beyond the modelled tree, network) as read-only
  oracle functions in a World record.
-/

namespace SmartShell

/-- JSON values as produced by json.loads.  Numbers keep their source
lexeme (no claim depends on numeric arithmetic); objects keep their
key/value pairs in parse order, with duplicate keys resolved last-wins
at lookup time, as Python dicts do. -/
inductive Json where
  | null : Json
  | bool : Bool → Json
  | num : String → Json
  | str : String → Json
  | arr : List Json → Json
  | obj : List (String × Json) → Json

/-- Python dict lookup over parse-ordered pairs: a later duplicate key
overrides an earlier one, as in dict(...) built by json.loads. -/
def lookupLast (kvs : List (String × Json)) (k : String) : Option Json :=
  kvs.foldl (fun acc kv => if kv.1 = k then some kv.2 else acc) none

/-- d.get(k) on a parsed JSON value: None unless the value is an object
holding the key. -/
def Json.getKey : Json → String → Option Json
  | .obj kvs, k => lookupLast kvs k
  | _, _ => none

/-- The Python test `k in parsed` for a parsed JSON object. -/
def Json.hasKey (j : Json) (k : String) : Bool :=
  (j.getKey k).isSome

/-- Whitespace recognized by Python str.strip() and by re \s (ASCII
fragment; the modelled inputs are ASCII/CJK text without exotic spaces). -/
def isPyWs (c : Char) : Bool :=
  c == ' ' || c == '\t' || c == '\n' || c == '\r' || c == '\x0b' || c == '\x0c'

/-- Whitespace the JSON grammar allows between tokens. -/
def isJsonWs (c : Char) : Bool :=
  c == ' ' || c == '\t' || c == '\n' || c == '\r'

/-- Python str.strip() on a character list. -/
def stripChars (s : List Char) : List Char :=
  ((s.dropWhile isPyWs).reverse.dropWhile isPyWs).reverse

/-- Python str.lower() (ASCII case folding suffices for the y/n answers
and git subcommand names the code lowercases). -/
def pyLower (s : String) : String :=
  ⟨s.data.map Char.toLower⟩

/-- Python text.split over the newline separator. -/
def splitOnNl : List Char → List (List Char)
  | [] => [[]]
  | c :: rest =>
    let r := splitOnNl rest
    if c = '\n' then [] :: r
    else
      match r with
      | [] => [[c]]
      | h :: t => (c :: h) :: t

/-- Literal-prefix test on character lists. -/
def startsWithL : List Char → List Char → Bool
  | [], _ => true
  | _ :: _, [] => false
  | p :: ps, s :: ss => p = s && startsWithL ps ss

/-- Python substring containment test `needle in hay`. -/
def containsSub (n : List Char) : List Char → Bool
  | [] => startsWithL n []
  | c :: t => startsWithL n (c :: t) || containsSub n t

/-- Hexadecimal digit value, for JSON \uXXXX escapes. -/
def hexVal (c : Char) : Option Nat :=
  if '0' ≤ c ∧ c ≤ '9' then some (c.toNat - '0'.toNat)
  else if 'a' ≤ c ∧ c ≤ 'f' then some (c.toNat - 'a'.toNat + 10)
  else if 'A' ≤ c ∧ c ≤ 'F' then some (c.toNat - 'A'.toNat + 10)
  else none

/-- JSON string body after the opening quote: ordinary characters, the
escape sequences json.loads accepts, and strict rejection of raw control
characters, accumulating in reverse. -/
def parseJstrAux : Nat → List Char → List Char → Option (List Char × List Char)
  | 0, _, _ => none
  | f + 1, acc, s =>
    match s with
    | [] => none
    | c :: rest =>
      if c = '"' then some (acc.reverse, rest)
      else if c = '\\' then
        match rest with
        | [] => none
        | e :: rest2 =>
          if e = '"' then parseJstrAux f ('"' :: acc) rest2
          else if e = '\\' then parseJstrAux f ('\\' :: acc) rest2
          else if e = '/' then parseJstrAux f ('/' :: acc) rest2
          else if e = 'b' then parseJstrAux f ('\x08' :: acc) rest2
          else if e = 'f' then parseJstrAux f ('\x0c' :: acc) rest2
          else if e = 'n' then parseJstrAux f ('\n' :: acc) rest2
          else if e = 'r' then parseJstrAux f ('\r' :: acc) rest2
          else if e = 't' then parseJstrAux f ('\t' :: acc) rest2
          else if e = 'u' then
            match rest2 with
            | h1 :: h2 :: h3 :: h4 :: rest3 =>
              match hexVal h1, hexVal h2, hexVal h3, hexVal h4 with
              | some a, some b, some c2, some d =>
                parseJstrAux f (Char.ofNat (((a * 16 + b) * 16 + c2) * 16 + d) :: acc) rest3
              | _, _, _, _ => none
            | _ => none
          else none
      else if c.toNat < 32 then none
      else parseJstrAux f (c :: acc) rest

/-- JSON number lexeme: sign, integer part without leading zeros, optional
fraction and exponent; a malformed fraction/exponent ends the lexeme rather
than failing, matching the json.loads tokenizer regexp. -/
def parseJnum (s0 : List Char) : Option (List Char × List Char) :=
  let (sgn, s1) :=
    match s0 with
    | '-' :: t => (['-'], t)
    | _ => (([] : List Char), s0)
  match s1 with
  | [] => none
  | c :: t =>
    if c = '0' then
      let (fr, rest) := jnumTail t
      some (sgn ++ ['0'] ++ fr, rest)
    else if c.isDigit then
      let ds := (c :: t).takeWhile Char.isDigit
      let t2 := (c :: t).dropWhile Char.isDigit
      let (fr, rest) := jnumTail t2
      some (sgn ++ ds ++ fr, rest)
    else none
where
  /-- Optional fraction then optional exponent. -/
  jnumTail (s : List Char) : List Char × List Char :=
    let (fr, s2) :=
      match s with
      | '.' :: d :: t =>
        if d.isDigit then
          ('.' :: d :: (t.takeWhile Char.isDigit), t.dropWhile Char.isDigit)
        else (([] : List Char), s)
      | _ => (([] : List Char), s)
    let (ex, s3) :=
      match s2 with
      | e :: rest =>
        if e = 'e' ∨ e = 'E' then
          match rest with
          | sg :: d :: t =>
            if (sg = '+' ∨ sg = '-') ∧ d.isDigit then
              ([e, sg, d] ++ t.takeWhile Char.isDigit, t.dropWhile Char.isDigit)
            else if sg.isDigit then
              ([e, sg] ++ rest.tail.takeWhile Char.isDigit, rest.tail.dropWhile Char.isDigit)
            else (([] : List Char), s2)
          | [d] =>
            if d.isDigit then ([e, d], ([] : List Char)) else (([] : List Char), s2)
          | [] => (([] : List Char), s2)
        else (([] : List Char), s2)
      | [] => (([] : List Char), s2)
    (fr ++ ex, s3)

/-- Skip inter-token JSON whitespace. -/
def skipJws (s : List Char) : List Char :=
  s.dropWhile isJsonWs

mutual

/-- One JSON value, fuel-bounded (fuel dominates input length). -/
def parseJval : Nat → List Char → Option (Json × List Char)
  | 0, _ => none
  | f + 1, s0 =>
    let s := skipJws s0
    match s with
    | [] => none
    | c :: rest =>
      if c = '"' then
        match parseJstrAux (rest.length + 1) [] rest with
        | some (cs, r) => some (Json.str ⟨cs⟩, r)
        | none => none
      else if c = '{' then
        let s2 := skipJws rest
        match s2 with
        | '}' :: r => some (Json.obj [], r)
        | _ => parseJmembers f s2 []
      else if c = '[' then
        let s2 := skipJws rest
        match s2 with
        | ']' :: r => some (Json.arr [], r)
        | _ => parseJelems f s2 []
      else if startsWithL "true".data s then some (Json.bool true, s.drop 4)
      else if startsWithL "false".data s then some (Json.bool false, s.drop 5)
      else if startsWithL "null".data s then some (Json.null, s.drop 4)
      else
        match parseJnum s with
        | some (lex, r) => some (Json.num ⟨lex⟩, r)
        | none => none

/-- Object members after the opening brace (nonempty object, trailing
comma rejected). -/
def parseJmembers : Nat → List Char → List (String × Json) →
    Option (Json × List Char)
  | 0, _, _ => none
  | f + 1, s, acc =>
    match s with
    | '"' :: rest =>
      match parseJstrAux (rest.length + 1) [] rest with
      | some (kcs, r1) =>
        match skipJws r1 with
        | ':' :: r2 =>
          match parseJval f r2 with
          | some (v, r3) =>
            match skipJws r3 with
            | ',' :: r4 => parseJmembers f (skipJws r4) (acc ++ [(⟨kcs⟩, v)])
            | '}' :: r4 => some (Json.obj (acc ++ [(⟨kcs⟩, v)]), r4)
            | _ => none
          | none => none
        | _ => none
      | none => none
    | _ => none

/-- Array elements after the opening bracket (nonempty array, trailing
comma rejected). -/
def parseJelems : Nat → List Char → List Json → Option (Json × List Char)
  | 0, _, _ => none
  | f + 1, s, acc =>
    match parseJval f s with
    | some (v, r1) =>
      match skipJws r1 with
      | ',' :: r2 => parseJelems f r2 (acc ++ [v])
      | ']' :: r2 => some (Json.arr (acc ++ [v]), r2)
      | _ => none
    | none => none

end

/-- json.loads: one value, only whitespace may follow; any other failure
is an exception in Python, modelled as none. -/
def pyJsonLoads (s : String) : Option Json :=
  let cs := s.data
  match parseJval (cs.length + 1) cs with
  | some (j, rest) => if (skipJws rest).isEmpty then some j else none
  | none => none

end SmartShell

namespace SmartShell

/-- The three-backtick fence delimiter of the extractor regexp. -/
def fence3 : List Char := "```".data

/-- The optional json tag right after an opening fence. -/
def jsonTag : List Char := "json".data

/-- The literal "action" (with its quotes) the regexp requires inside the
captured object. -/
def actionLit : List Char := "\"action\"".data

/-- Literal test at an index. -/
def litAt (s : List Char) (lit : List Char) (i : Nat) : Bool :=
  startsWithL lit (s.drop i)

/-- Index after the maximal run of regexp whitespace starting at i. -/
def skipWsFrom (s : List Char) : Nat → Nat → Nat
  | 0, i => i
  | f + 1, i =>
    match s.get? i with
    | some c => if isPyWs c then skipWsFrom s f (i + 1) else i
    | none => i

/-- First index at or after i where the literal occurs. -/
def findLitFrom (s lit : List Char) : Nat → Nat → Option Nat
  | 0, _ => none
  | f + 1, i =>
    if litAt s lit i then some i
    else if i < s.length then findLitFrom s lit f (i + 1)
    else none

/-- First closing brace at or after i that is followed, across optional
whitespace, by a closing fence; returns the brace index and the index just
past the fence.  This is the backtracking search the lazy subpattern
.*?\x7d\s*``` performs once the "action" literal has been fixed. -/
def findGoodClose (s : List Char) : Nat → Nat → Option (Nat × Nat)
  | 0, _ => none
  | f + 1, i =>
    match s.get? i with
    | none => none
    | some c =>
      if c = '}' then
        let e := skipWsFrom s s.length (i + 1)
        if litAt s fence3 e then some (i, e + 3)
        else findGoodClose s f (i + 1)
      else findGoodClose s f (i + 1)

/-- Attempt of the extractor regexp
``(?:json)?\s*(\x7b.*?"action".*?\x7d)\s*`` (DOTALL) anchored at index i.
Lazy quantifiers make the engine take the first occurrence of the literal
"action" after the opening brace and then the first viable closing brace;
a later "action" occurrence can only offer a subset of the closing braces,
so the first occurrence alone decides.  Returns capture start, capture end
(exclusive) and the index just past the whole match. -/
def matchAt (s : List Char) (i : Nat) : Option (Nat × Nat × Nat) :=
  if litAt s fence3 i then
    let j0 := i + 3
    let j1 := if litAt s jsonTag j0 then j0 + 4 else j0
    let j2 := skipWsFrom s s.length j1
    if s.get? j2 = some '{' then
      match findLitFrom s actionLit (s.length + 1) (j2 + 1) with
      | none => none
      | some a =>
        match findGoodClose s (s.length + 1) (a + 8) with
        | none => none
        | some (b, e) => some (j2, b + 1, e)
    else none
  else none

/-- re.findall: leftmost matches, scanning resumes after each match. -/
def findAllMatches (s : List Char) : Nat → Nat → List (List Char)
  | 0, _ => []
  | f + 1, p =>
    match matchAt s p with
    | some (cs, ce, e) => ((s.drop cs).take (ce - cs)) :: findAllMatches s f e
    | none => if p < s.length then findAllMatches s f (p + 1) else []

/-- First regexp capture that json.loads accepts and that contains an
"action" key; parse failures and action-less objects are skipped. -/
def firstGoodMatch : List (List Char) → Option Json
  | [] => none
  | m :: rest =>
    match pyJsonLoads ⟨stripChars m⟩ with
    | some j => if j.hasKey "action" then some j else firstGoodMatch rest
    | none => firstGoodMatch rest

/-- Fallback line scan: first line that, stripped, begins with an opening
brace, contains the literal "action", and parses as JSON with an "action"
key. -/
def lineScan : List (List Char) → Option Json
  | [] => none
  | l :: rest =>
    let t := stripChars l
    let headBrace :=
      match t with
      | c :: _ => c = '{'
      | [] => false
    if headBrace && containsSub actionLit t then
      match pyJsonLoads ⟨t⟩ with
      | some j => if j.hasKey "action" then some j else lineScan rest
      | none => lineScan rest
    else lineScan rest

/-- extract_json_command (smart_shell_agent.py lines 471-505): regexp scan
over fenced blocks first, then the per-line fallback; malformed JSON is
skipped everywhere and never raises. -/
def extract_json_command (text : String) : Option Json :=
  let s := text.data
  match firstGoodMatch (findAllMatches s (s.length + 2) 0) with
  | some j => some j
  | none => lineScan (splitOnNl s)

/-- Elements at odd positions of a list (the texts between fence pairs
when splitting on the fence delimiter). -/
def oddIdx {α : Type} : List α → List α
  | [] => []
  | [_] => []
  | _ :: b :: t => b :: oddIdx t

/-- Split on every occurrence of a literal, left to right. -/
def splitOnLit (lit : List Char) : Nat → List Char → List (List Char)
  | 0, s => [s]
  | f + 1, s =>
    if startsWithL lit s ∧ lit ≠ [] then
      [] :: splitOnLit lit f (s.drop lit.length)
    else
      match s with
      | [] => [[]]
      | c :: t =>
        match splitOnLit lit f t with
        | [] => [[c]]
        | h :: r => (c :: h) :: r

/-- Second definition for the refinement comparison, following the words
of the specification: the contents of the fenced code blocks are the
odd-position segments between fence delimiters, an optional json tag is
allowed, and the first block that parses as JSON containing an "action"
key is returned, with the same per-line fallback as step 2. -/
def specFencedBlocks (s : List Char) : List (List Char) :=
  oddIdx (splitOnLit fence3 (s.length + 1) s)

/-- Spec-side candidate: drop the optional json tag, strip, parse. -/
def specFirstBlock : List (List Char) → Option Json
  | [] => none
  | b :: rest =>
    let c := if startsWithL jsonTag b then b.drop 4 else b
    match pyJsonLoads ⟨stripChars c⟩ with
    | some j => if j.hasKey "action" then some j else specFirstBlock rest
    | none => specFirstBlock rest

/-- The Command Extractor as the specification describes it (spec 4.1):
first fenced block that is valid JSON with an "action" key, then the
line rule, else none. -/
def specExtractCommand (text : String) : Option Json :=
  let s := text.data
  match specFirstBlock (specFencedBlocks s) with
  | some j => some j
  | none => lineScan (splitOnNl s)

end SmartShell

namespace SmartShell

/-- One per-file entry of a wildcard deletion result. -/
structure DelEntry where
  file : String
  success : Bool
  typ : Option String
  error : Option String
  message : Option String
deriving DecidableEq

/-- Result dictionaries the dispatcher and handlers build.  Fields in
constructor order: success, error, warning, confirmationNeeded, message,
command, output, results (batch children as action/result pairs),
deleted, count.  Result fields that no branch of the modelled code and no
claim reads (old_directory, full_path, file statistics, ...) are folded
into message. -/
inductive Res where
  | mk (success : Bool) (error : Option String) (warning : Option String)
       (confirmationNeeded : Option Bool) (message : Option String)
       (command : Option String) (output : Option String)
       (results : List (Option Json × Res)) (deleted : List DelEntry)
       (count : Option Nat)

/-- Success flag of a Result. -/
def Res.success : Res → Bool
  | .mk s _ _ _ _ _ _ _ _ _ => s

/-- Error field of a Result. -/
def Res.error : Res → Option String
  | .mk _ e _ _ _ _ _ _ _ _ => e

/-- Warning field of a Result. -/
def Res.warning : Res → Option String
  | .mk _ _ w _ _ _ _ _ _ _ => w

/-- confirmation_needed field of a Result. -/
def Res.confirmationNeeded : Res → Option Bool
  | .mk _ _ _ c _ _ _ _ _ _ => c

/-- Message field of a Result. -/
def Res.message : Res → Option String
  | .mk _ _ _ _ m _ _ _ _ _ => m

/-- Command field of a Result (git results carry it). -/
def Res.command : Res → Option String
  | .mk _ _ _ _ _ c _ _ _ _ => c

/-- Output field of a Result (git results carry it). -/
def Res.output : Res → Option String
  | .mk _ _ _ _ _ _ o _ _ _ => o

/-- Batch children of a Result, as (sub-action, sub-result) pairs. -/
def Res.results : Res → List (Option Json × Res)
  | .mk _ _ _ _ _ _ _ r _ _ => r

/-- Per-file entries of a wildcard deletion Result. -/
def Res.deleted : Res → List DelEntry
  | .mk _ _ _ _ _ _ _ _ d _ => d

/-- Count field of a wildcard deletion Result. -/
def Res.count : Res → Option Nat
  | .mk _ _ _ _ _ _ _ _ _ c => c

/-- Plain success Result carrying only a message. -/
def resOk (m : String) : Res :=
  .mk true none none none (some m) none none [] [] none

/-- Plain failure Result carrying only an error string. -/
def resErr (e : String) : Res :=
  .mk false (some e) none none none none none [] [] none

/-- The fall-through Result of execute_command for an action name no
branch recognizes (smart_shell_agent.py line 1583). -/
def unknownActionRes : Res :=
  resErr "未知的操作类型"

/-- File-system entries of the modelled directory tree. -/
inductive FsEntry where
  | file : FsEntry
  | dir : FsEntry
deriving DecidableEq

/-- The mutable state of the agent process: the work directory owned by
the loop, the modelled file-system tree, the queue of pending interactive
answers consumed by input(), a log of handler invocations, and logs of the
shell and git subprocesses actually spawned (so that a declined command is
visibly never executed). -/
structure AgentState where
  workdir : String
  fs : List (String × FsEntry)
  stdin : List String
  calls : List String
  shellRuns : List String
  gitRuns : List String

/-- Read-only environment oracles: path resolution, wildcard glob,
subprocess exit codes, the git repository test, and the Results of the
simple I/O-wrapper handlers the specification places out of scope (list,
move, info, ffmpeg, summarize, read, analyze_image, diff, knowledge_*),
which are external collaborators invoked through the registry. -/
structure World where
  resolvePath : String → String
  glob : String → List String
  shellExit : String → Int
  isGitRepo : String → Bool
  gitRun : String → String → Int × String × String
  handlerRes : String → Json → Res
  hasKnowledge : Bool

/-- Blocking input(): pop the next pending answer (empty answer if the
queue is exhausted). -/
def readLine (σ : AgentState) : String × AgentState :=
  match σ.stdin with
  | [] => ("", σ)
  | a :: rest => (a, { σ with stdin := rest })

/-- Record a handler invocation. -/
def logCall (σ : AgentState) (name : String) : AgentState :=
  { σ with calls := σ.calls ++ [name] }

/-- Lookup one path in the modelled tree. -/
def fsLookup (fs : List (String × FsEntry)) (p : String) : Option FsEntry :=
  match fs with
  | [] => none
  | kv :: rest => if kv.1 = p then some kv.2 else fsLookup rest p

/-- Path existence test. -/
def fsExists (fs : List (String × FsEntry)) (p : String) : Bool :=
  (fsLookup fs p).isSome

/-- Directory test. -/
def fsIsDir (fs : List (String × FsEntry)) (p : String) : Bool :=
  fsLookup fs p = some .dir

/-- Remove exactly one path (os.unlink). -/
def fsRemove (fs : List (String × FsEntry)) (p : String) :
    List (String × FsEntry) :=
  fs.filter (fun kv => ¬ kv.1 = p)

/-- Remove a directory and everything below it (shutil.rmtree). -/
def fsRemoveTree (fs : List (String × FsEntry)) (p : String) :
    List (String × FsEntry) :=
  fs.filter (fun kv => ¬ (kv.1 = p ∨ startsWithL (p ++ "/").data kv.1.data))

/-- Insert or overwrite one path. -/
def fsSet (fs : List (String × FsEntry)) (p : String) (e : FsEntry) :
    List (String × FsEntry) :=
  (p, e) :: fsRemove fs p

/-- pathlib joining: an empty or absolute right-hand side replaces the
directory part, otherwise the name is appended. -/
def joinPath (wd : String) (name : String) : String :=
  if name = "" then wd
  else
    match name.data with
    | '/' :: _ => name
    | _ => wd ++ "/" ++ name

/-- Path.parent: strip the last component; the parent of the root is the
root, the parent of a bare name is the dot directory. -/
def parentPath (p : String) : String :=
  let r := p.data.reverse.dropWhile (fun c => ¬ c = '/')
  match r with
  | [] => "."
  | [_] => "/"
  | _ :: t => ⟨t.reverse⟩

/-- The absolute-path test of action_change_directory: a leading slash or
backslash, or a drive colon in second position. -/
def pathStartsAbs (p : String) : Bool :=
  match p.data with
  | '/' :: _ => true
  | '\\' :: _ => true
  | _ :: c :: _ => c = ':'
  | _ => false

/-- Python truthiness of a y/n confirmation: the effect runs only when
the lowered answer is exactly y. -/
def answerYes (ans : String) : Bool :=
  pyLower ans = "y"

end SmartShell

namespace SmartShell

/-- Last path component (Path.name). -/
def baseName (p : String) : String :=
  ⟨(p.data.reverse.takeWhile (fun c => ¬ c = '/')).reverse⟩

/-- action_change_directory (lines 644-682): path algebra for dot, dotdot,
absolute and relative paths, resolution through the oracle, existence and
directory checks, and the single mutation of the work directory on the
success path.  The update of the input handler is a plain field setter and
cannot fail; extra success fields old_directory/new_directory are folded
into the message. -/
def action_change_directory (W : World) (path : String) (σ : AgentState) :
    Res × AgentState :=
  let newPath :=
    if path = ".." then parentPath σ.workdir
    else if path = "." then σ.workdir
    else if pathStartsAbs path then path
    else joinPath σ.workdir path
  let resolved := W.resolvePath newPath
  if ¬ fsExists σ.fs resolved then
    (resErr ("目录 \x27" ++ path ++ "\x27 不存在"), σ)
  else if ¬ fsIsDir σ.fs resolved then
    (resErr ("\x27" ++ path ++ "\x27 不是一个目录"), σ)
  else
    (resOk ("已切换到目录: " ++ resolved), { σ with workdir := resolved })

/-- action_rename_file (lines 684-705): refuse a missing source or an
existing target before touching anything, else move the entry to the new
path.  A directory rename carries its subtree in Python; the modelled tree
moves the entry itself, which the claims (all about the refusal branches)
never distinguish. -/
def action_rename_file (old_name new_name : String) (σ : AgentState) :
    Res × AgentState :=
  let oldPath := joinPath σ.workdir old_name
  let newPath := joinPath σ.workdir new_name
  if ¬ fsExists σ.fs oldPath then
    (resErr ("文件 \x27" ++ old_name ++ "\x27 不存在"), σ)
  else if fsExists σ.fs newPath then
    (resErr ("目标文件 \x27" ++ new_name ++ "\x27 已存在"), σ)
  else
    match fsLookup σ.fs oldPath with
    | some e =>
      (resOk ("成功将 \x27" ++ old_name ++ "\x27 重命名为 \x27" ++ new_name ++ "\x27"),
       { σ with fs := fsSet (fsRemove σ.fs oldPath) newPath e })
    | none => (resErr ("文件 \x27" ++ old_name ++ "\x27 不存在"), σ)

/-- action_create_directory (lines 818-835): refuse an existing path, else
create the directory (parents are created too in Python; the scenarios use
single-level names). -/
def action_create_directory (dir_name : String) (σ : AgentState) :
    Res × AgentState :=
  let dirPath := joinPath σ.workdir dir_name
  if fsExists σ.fs dirPath then
    (resErr ("文件夹 \x27" ++ dir_name ++ "\x27 已存在"), σ)
  else
    (resOk ("成功创建文件夹 \x27" ++ dir_name ++ "\x27"),
     { σ with fs := fsSet σ.fs dirPath .dir })

/-- One file of a wildcard deletion (the loop body at lines 770-782). -/
def deleteOne (fs : List (String × FsEntry)) (p : String) :
    DelEntry × List (String × FsEntry) :=
  if ¬ fsExists fs p then
    (⟨p, false, none, some "不存在", none⟩, fs)
  else if fsIsDir fs p then
    (⟨p, true, some "directory", none, some ("成功删除目录 \x27" ++ baseName p ++ "\x27")⟩,
     fsRemoveTree fs p)
  else
    (⟨p, true, some "file", none, some ("成功删除文件 \x27" ++ baseName p ++ "\x27")⟩,
     fsRemove fs p)

/-- The wildcard deletion loop over all matched paths. -/
def deleteAll (fs : List (String × FsEntry)) :
    List String → List DelEntry × List (String × FsEntry)
  | [] => ([], fs)
  | p :: rest =>
    let (e, fs1) := deleteOne fs p
    let (tl, fs2) := deleteAll fs1 rest
    (e :: tl, fs2)

/-- The single-path deletion body (lines 795-816). -/
def deleteSingle (file_name : String) (σ : AgentState) : Res × AgentState :=
  let p := joinPath σ.workdir file_name
  if ¬ fsExists σ.fs p then
    (resErr ("文件 \x27" ++ file_name ++ "\x27 不存在"), σ)
  else if fsIsDir σ.fs p then
    (resOk ("成功删除目录 \x27" ++ file_name ++ "\x27"),
     { σ with fs := fsRemoveTree σ.fs p })
  else
    (resOk ("成功删除文件 \x27" ++ file_name ++ "\x27"),
     { σ with fs := fsRemove σ.fs p })

/-- action_delete_file (lines 752-816): wildcard deletions glob first and
ask one confirmation for the whole matched set; single deletions ask
before even checking existence.  A non-affirmative answer returns the
decline Result with warning and confirmation_needed false and performs no
deletion. -/
def action_delete_file (W : World) (file_name : String) (confirmed : Bool)
    (σ : AgentState) : Res × AgentState :=
  if file_name.data.contains '*' || file_name.data.contains '?' then
    let pattern := W.resolvePath (joinPath σ.workdir file_name)
    let matched := W.glob pattern
    if matched.isEmpty then
      (resErr ("未找到匹配的文件: " ++ file_name), σ)
    else if ¬ confirmed then
      let (ans, σ1) := readLine σ
      if ¬ answerYes ans then
        (Res.mk false none
          (some ("用户拒绝批量删除 \x27" ++ file_name ++ "\x27, 请跳过这些文件/目录"))
          (some false) none none none [] [] none, σ1)
      else
        let (entries, fs2) := deleteAll σ1.fs matched
        (Res.mk (entries.all (fun e => e.success)) none none none none none none
          [] entries (some entries.length), { σ1 with fs := fs2 })
    else
      let (entries, fs2) := deleteAll σ.fs matched
      (Res.mk (entries.all (fun e => e.success)) none none none none none none
        [] entries (some entries.length), { σ with fs := fs2 })
  else
    if ¬ confirmed then
      let (ans, σ1) := readLine σ
      if ¬ answerYes ans then
        (Res.mk false none
          (some ("用户拒绝删除 \x27" ++ file_name ++ "\x27，请跳过这个文件/目录"))
          (some false) none none none [] [] none, σ1)
      else deleteSingle file_name σ1
    else deleteSingle file_name σ

/-- action_shell_command (lines 926-957): empty commands are refused, a
confirmation is requested, and a non-affirmative answer returns a plain
error Result (no warning, no confirmation_needed field) without spawning
the subprocess; otherwise the command is spawned inheriting the terminal
and the exit code decides the Result. -/
def action_shell_command (W : World) (command : String) (σ : AgentState) :
    Res × AgentState :=
  if stripChars command.data = [] then
    (resErr "命令不能为空", σ)
  else
    let (ans, σ1) := readLine σ
    if ¬ answerYes ans then
      (resErr "用户取消了操作", σ1)
    else
      let σ2 := { σ1 with shellRuns := σ1.shellRuns ++ [command] }
      let rc := W.shellExit command
      if rc = 0 then (resOk "命令执行成功", σ2)
      else (resErr ("命令执行失败，退出码: " ++ toString rc), σ2)

/-- action_create_script (lines 959-986): confirmation first (before the
parameter check inside the try), a non-affirmative answer returns a plain
error Result without writing; otherwise refuse an existing path and write
the file (the chmod of script suffixes has no observable effect in the
modelled tree). -/
def action_create_script (filename content : String) (σ : AgentState) :
    Res × AgentState :=
  let (ans, σ1) := readLine σ
  if ¬ answerYes ans then
    (resErr "用户取消了操作", σ1)
  else if filename = "" ∨ content = "" then
    (resErr "缺少文件名或内容", σ1)
  else
    let p := joinPath σ1.workdir filename
    if fsExists σ1.fs p then
      (resErr ("文件 \x27" ++ filename ++ "\x27 已存在"), σ1)
    else
      (resOk ("成功创建脚本文件 \x27" ++ filename ++ "\x27"),
       { σ1 with fs := fsSet σ1.fs p .file })

/-- The git subcommands the source treats as write operations. -/
def gitWriteCommands : List String :=
  ["add", "commit", "push", "pull", "merge", "rebase", "reset",
   "checkout", "branch", "tag", "remote", "fetch", "clone", "init",
   "stash", "cherry-pick", "revert", "clean", "rm", "mv"]

/-- The subprocess part of action_git after any confirmation: repository
check, then the spawned git command with its exit code, stdout and
stderr.  The git-not-installed and timeout branches of the repository
check are absorbed into the oracle. -/
def gitGo (W : World) (full : String) (σ : AgentState) : Res × AgentState :=
  if ¬ W.isGitRepo σ.workdir then
    (resErr "当前目录不是Git仓库", σ)
  else
    let σ2 := { σ with gitRuns := σ.gitRuns ++ [full] }
    let (rc, out, err) := W.gitRun full σ.workdir
    if rc = 0 then
      (Res.mk true none none none (some "Git命令执行成功") (some full)
        (some ⟨stripChars out.data⟩) [] [] none, σ2)
    else
      (Res.mk false
        (some (if err = "" then "Git命令执行失败，退出码: " ++ toString rc
               else ⟨stripChars err.data⟩))
        none none none (some full) (some ⟨stripChars out.data⟩) [] [] none, σ2)

/-- action_git (lines 1053-1136): write operations (by lowered subcommand
name) request confirmation; a non-affirmative answer returns an error
Result with the command and a cancel message, without running git. -/
def action_git (W : World) (command : String) (args : Option String)
    (σ : AgentState) : Res × AgentState :=
  let full :=
    match args with
    | some a => "git " ++ command ++ " " ++ a
    | none => "git " ++ command
  if gitWriteCommands.contains (pyLower command) then
    let (ans, σ1) := readLine σ
    if ¬ answerYes ans then
      (Res.mk false (some "用户取消了Git写操作") none none (some "Git命令已取消")
        (some full) none [] [] none, σ1)
    else gitGo W full σ1
  else gitGo W full σ

end SmartShell

namespace SmartShell

/-- Truthy string parameter lookup: params.get(k) followed by the Python
truthiness test the dispatcher branches on (an empty string is falsy;
non-string JSON values in a string-typed slot make the handler raise in
Python and are treated as absent here). -/
def pstr (params : Json) (k : String) : Option String :=
  match params.getKey k with
  | some (.str s) => if s = "" then none else some s
  | _ => none

/-- command.get("params", \x7b\x7d). -/
def paramsOf (cmd : Json) : Json :=
  match cmd.getKey "params" with
  | some p => p
  | none => Json.obj []

/-- The batch loop (lines 1252-1262): every sub-command executes in order
regardless of earlier failures, each contributing its (action, result)
pair, and the aggregate success is the conjunction of the children. -/
def runBatchWith (exec1 : Json → AgentState → Res × AgentState) :
    List Json → AgentState → List (Option Json × Res) × Bool × AgentState
  | [], σ => ([], true, σ)
  | c :: rest, σ =>
    let (r, σ1) := exec1 c σ
    let (tl, ok, σ2) := runBatchWith exec1 rest σ1
    ((c.getKey "action", r) :: tl, r.success && ok, σ2)

/-- execute_command (lines 1241-1583): the dispatcher.  Recognized actions
validate their parameters (with the alias names file_name/path/name where
the source accepts them) and invoke the handler; delete, info, ffmpeg,
summarize, shell, script, read, analyze_image, git, diff and
knowledge_search have explicit missing-parameter returns, while rename,
move and mkdir with missing parameters fall off the elif chain to the
final unknown-action return, exactly as the source does.  Handlers the
specification leaves out of scope as simple I/O wrappers are invoked
through the World oracle; every invocation is logged.  The fuel bounds
batch nesting (unbounded recursion in Python); claims use bounded
nesting, so the fuel branch is unreachable there. -/
def execute_command (W : World) : Nat → Json → AgentState → Res × AgentState
  | 0, _, σ => (resErr "批量递归深度耗尽", σ)
  | f + 1, cmd, σ =>
    let params := paramsOf cmd
    match cmd.getKey "action" with
    | some (Json.str a) =>
      if a = "cls" then (resOk "屏幕已清空", σ)
      else if a = "batch" then
        let cmds :=
          match params.getKey "commands" with
          | some (.arr xs) => xs
          | _ => []
        let (pairs, ok, σ2) := runBatchWith (fun c σ0 => execute_command W f c σ0) cmds σ
        (Res.mk ok none none none none none none pairs [] none, σ2)
      else if a = "list" then
        (W.handlerRes "list" params, logCall σ "list")
      else if a = "cd" then
        let path :=
          match params.getKey "path" with
          | some (.str s) => s
          | _ => ""
        action_change_directory W path (logCall σ "cd")
      else if a = "rename" then
        match pstr params "old_name", pstr params "new_name" with
        | some o, some n => action_rename_file o n (logCall σ "rename")
        | _, _ => (unknownActionRes, σ)
      else if a = "move" then
        match pstr params "source", pstr params "destination" with
        | some _, some _ => (W.handlerRes "move" params, logCall σ "move")
        | _, _ => (unknownActionRes, σ)
      else if a = "delete" then
        match pstr params "file_name" <|> pstr params "path" <|> pstr params "name" with
        | some n => action_delete_file W n false (logCall σ "delete")
        | none => (resErr "缺少文件名参数", σ)
      else if a = "mkdir" then
        match pstr params "path" with
        | some p => action_create_directory p (logCall σ "mkdir")
        | none => (unknownActionRes, σ)
      else if a = "info" then
        match pstr params "file_name" <|> pstr params "path" <|> pstr params "name" with
        | some _ => (W.handlerRes "info" params, logCall σ "info")
        | none => (resErr "缺少文件名参数", σ)
      else if a = "ffmpeg" then
        match pstr params "source", pstr params "target" with
        | some _, some _ => (W.handlerRes "ffmpeg" params, logCall σ "ffmpeg")
        | _, _ => (resErr "缺少 source 或 target 参数", σ)
      else if a = "summarize" then
        match pstr params "path" with
        | some _ => (W.handlerRes "summarize" params, logCall σ "summarize")
        | none => (resErr "缺少path参数", σ)
      else if a = "shell" then
        match pstr params "command" with
        | some c => action_shell_command W c (logCall σ "shell")
        | none => (resErr "缺少command参数", σ)
      else if a = "script" then
        match pstr params "filename", pstr params "content" with
        | some fn, some ct => action_create_script fn ct (logCall σ "script")
        | _, _ => (resErr "缺少filename或content参数", σ)
      else if a = "read" then
        match pstr params "path" with
        | some _ => (W.handlerRes "read" params, logCall σ "read")
        | none => (resErr "缺少path参数", σ)
      else if a = "analyze_image" then
        match pstr params "path" with
        | some _ => (W.handlerRes "analyze_image" params, logCall σ "analyze_image")
        | none => (resErr "缺少path参数", σ)
      else if a = "git" then
        match pstr params "command" with
        | some c => action_git W c (pstr params "args") (logCall σ "git")
        | none => (resErr "缺少command参数", σ)
      else if a = "diff" then
        match pstr params "file1", pstr params "file2" with
        | some _, some _ => (W.handlerRes "diff" params, logCall σ "diff")
        | _, _ => (resErr "缺少file1或file2参数", σ)
      else if a = "knowledge_sync" then
        if W.hasKnowledge then (W.handlerRes "knowledge_sync" params, logCall σ "knowledge_sync")
        else (resErr "知识库功能不可用", σ)
      else if a = "knowledge_stats" then
        if W.hasKnowledge then (W.handlerRes "knowledge_stats" params, logCall σ "knowledge_stats")
        else (resErr "知识库功能不可用", σ)
      else if a = "knowledge_search" then
        if W.hasKnowledge then
          match pstr params "query" with
          | some _ => (W.handlerRes "knowledge_search" params, logCall σ "knowledge_search")
          | none => (resErr "缺少搜索查询参数", σ)
        else (resErr "知识库功能不可用", σ)
      else (unknownActionRes, σ)
    | _ => (unknownActionRes, σ)

end SmartShell

namespace SmartShell

/-- The Python test `command.get("last_action") == True` (an equality,
not a truthiness test: True and the number one compare equal, any other
value does not). -/
def lastActionTrue (cmd : Json) : Bool :=
  match cmd.getKey "last_action" with
  | some (.bool b) => b
  | some (.num r) => r = "1" || r = "1.0"
  | _ => false

/-- The done test of the loop, `command.get("action") == "done"`. -/
def isDoneCmd (cmd : Json) : Bool :=
  match cmd.getKey "action" with
  | some (.str s) => s = "done"
  | _ => false

/-- Observable outcome of one exchange of the orchestration loop: the
inputs passed to the model (their number is the number of model calls),
the commands dispatched, their results, the final agent state, and
whether the loop returned to awaiting user input (false only when the
supplied reply trace ran out while the loop wanted another model call). -/
structure ExchOut where
  modelInputs : List String
  executed : List Json
  results : List Res
  finalState : AgentState
  ended : Bool

/-- The inner autonomous loop of run (lines 1743-1781), abstracted over
the trace of model replies (each reply is the fully drained stream text)
and over the json.dumps serialization of the logged
command/result/timestamp entry.  Each iteration sends one input to the
model and consumes one reply; no extracted command or an extracted done
command ends the exchange with nothing dispatched; otherwise the command
is executed and the loop ends exactly when the result succeeded and the
command carried last_action true, else the serialized execution result
becomes the next model input. -/
def runExchange (W : World) (ser : Json → Res → String) (f : Nat) :
    AgentState → String → List String → ExchOut
  | σ, _, [] => ⟨[], [], [], σ, false⟩
  | σ, nextInput, reply :: rest =>
    match extract_json_command reply with
    | none => ⟨[nextInput], [], [], σ, true⟩
    | some cmd =>
      if isDoneCmd cmd then ⟨[nextInput], [], [], σ, true⟩
      else
        let (r, σ2) := execute_command W f cmd σ
        if r.success && lastActionTrue cmd then
          ⟨[nextInput], [cmd], [r], σ2, true⟩
        else
          let o := runExchange W ser f σ2 ("命令执行结果：" ++ ser cmd r) rest
          ⟨nextInput :: o.modelInputs, cmd :: o.executed, r :: o.results,
           o.finalState, o.ended⟩

/-- One event of the line iterator a streaming HTTP response yields:
either a served line or a transport failure raised while reading. -/
inductive LineEv where
  | line (s : String) : LineEv
  | fail (e : String) : LineEv

/-- A conversation history entry. -/
structure Msg where
  role : String
  content : String
deriving DecidableEq

/-- The state of the streaming generator gen() inside call_ai (lines
320-338): remaining line events, the accumulated buffer, the user input
captured by the closure, and the conversation history it appends to. -/
structure GenState where
  remaining : List LineEv
  buffer : String
  userInput : String
  hist : List Msg

/-- How gen() treats one served line: skipped (not a data line, the JSON
fails to parse, the delta is missing, empty or not a string — all those
exceptions are swallowed by the inner try), the DONE marker ending the
stream, or a yielded delta. -/
inductive LineAct where
  | skip : LineAct
  | finish : LineAct
  | yieldD (d : String) : LineAct

/-- Classify one line exactly as the generator body does. -/
def classifyLine (l : String) : LineAct :=
  if ¬ startsWithL "data: ".data l.data then .skip
  else
    let d := l.data.drop 6
    if stripChars d = "[DONE]".data then .finish
    else
      match pyJsonLoads ⟨d⟩ with
      | none => .skip
      | some j =>
        match j.getKey "choices" with
        | some (.arr (c0 :: _)) =>
          match c0.getKey "delta" with
          | some dj =>
            match dj.getKey "content" with
            | some (.str s) => if s = "" then .skip else .yieldD s
            | _ => .skip
          | none => .skip
        | _ => .skip

/-- One step of the generator: a yielded delta, normal exhaustion (which
performs the history append), or a transport failure propagating out of
the generator frame. -/
inductive GenStep where
  | yield (d : String) (s : GenState) : GenStep
  | stop (s : GenState) : GenStep
  | raise (e : String) (s : GenState) : GenStep

/-- The generator body, walking the line events until it yields, finishes
(appending the user and assistant entries exactly then), or a read of the
next line raises. -/
def genNextAux (u : String) (h : List Msg) (buf : String) :
    List LineEv → GenStep
  | [] => .stop ⟨[], buf, u, h ++ [⟨"user", u⟩, ⟨"assistant", buf⟩]⟩
  | .fail e :: rest => .raise e ⟨rest, buf, u, h⟩
  | .line l :: rest =>
    match classifyLine l with
    | .skip => genNextAux u h buf rest
    | .finish => .stop ⟨rest, buf, u, h ++ [⟨"user", u⟩, ⟨"assistant", buf⟩]⟩
    | .yieldD d => .yield d ⟨rest, buf ++ d, u, h⟩

/-- next() on the generator. -/
def genNext (s : GenState) : GenStep :=
  genNextAux s.userInput s.hist s.buffer s.remaining

/-- Drain the generator to exhaustion: the yielded deltas in order, the
transport failure if one escaped, and the final state. -/
def genDrainAux : Nat → GenState → List String × Option String × GenState
  | 0, s => ([], none, s)
  | f + 1, s =>
    match genNext s with
    | .stop s2 => ([], none, s2)
    | .raise e s2 => ([], some e, s2)
    | .yield d s2 =>
      let (ds, err, s3) := genDrainAux f s2
      (d :: ds, err, s3)

/-- Full drain with adequate fuel. -/
def genDrain (s : GenState) : List String × Option String × GenState :=
  genDrainAux (s.remaining.length + 1) s

/-- The textual reply call_ai returns when requests.post itself raises,
built by the except clause at lines 381-383. -/
def adapterErrText (e provider model : String) : String :=
  "调用大模型API时出错: " ++ e ++ " (provider: " ++ provider ++ ", model: " ++ model ++ ")"

/-- The streaming branch of call_ai at the adapter boundary: a request
failure is caught inside call_ai and becomes a textual error reply; a
successful request returns the generator, whose body has not run yet.
call_ai itself never lets an exception out. -/
def call_ai_stream (post : Except String (List LineEv)) (userInput : String)
    (hist : List Msg) (provider model : String) : Sum String GenState :=
  match post with
  | .error e => .inl (adapterErrText e provider model)
  | .ok lines => .inr ⟨lines, "", userInput, hist⟩

/-- Concatenation of yielded fragments, structurally. -/
def concatStr : List String → String
  | [] => ""
  | s :: rest => s ++ concatStr rest

/-- The consuming side in run (lines 1750-1758): the for loop accumulates
the yielded chunks and its own try/except absorbs a failure raised out of
the generator, so the loop continues with the partial reply. -/
def loopConsume (g : GenState) : String × GenState :=
  let (ds, _, s2) := genDrain g
  (concatStr ds, s2)

/-- A line-event trace with no transport failure. -/
def errorFree (evs : List LineEv) : Bool :=
  evs.all (fun ev => match ev with | .line _ => true | .fail _ => false)

end SmartShell

namespace SmartShell

/-- A concrete environment for the worked examples: identity resolution,
no glob matches, succeeding subprocesses, a git repository, and trivially
succeeding out-of-scope handlers. -/
def exW : World :=
  ⟨id, fun _ => [], fun _ => 0, fun _ => true, fun _ _ => (0, "", ""),
   fun _ _ => resOk "ok", false⟩

/-- exW with one glob match, for the wildcard-deletion examples. -/
def exWGlob : World :=
  { exW with glob := fun _ => ["/home/user/a.txt"] }

/-- A concrete starting state: a work directory holding two files. -/
def exState : AgentState :=
  ⟨"/home/user",
   [("/home/user", .dir), ("/home/user/a.txt", .file), ("/home/user/b.txt", .file)],
   [], [], [], []⟩

/-- exState with a pending non-affirmative confirmation answer. -/
def exDecline : AgentState :=
  { exState with stdin := ["n"] }

/-- A trivial serialization stand-in for json.dumps of the logged entry. -/
def exSer : Json → Res → String := fun _ _ => "entry"

/-- A shell command object as the model would produce it. -/
def exShellCmd : Json :=
  Json.obj [("action", Json.str "shell"),
            ("params", Json.obj [("command", Json.str "echo hi")])]

/-- A rename command with an empty params object. -/
def exRenameNoParams : Json :=
  Json.obj [("action", Json.str "rename"), ("params", Json.obj [])]

/-- A delete command with an empty params object. -/
def exDeleteNoParams : Json :=
  Json.obj [("action", Json.str "delete"), ("params", Json.obj [])]

/-- C10 — rename refuses to overwrite: whenever the target name already
exists in the work directory (and whatever the source entry is), the
handler returns success false with an error and the state, hence the
whole modelled tree including source and target, is exactly the input
state. -/
theorem c10_rename_never_overwrites (σ : AgentState) (old_name new_name : String)
    (eo en : FsEntry)
    (ho : fsLookup σ.fs (joinPath σ.workdir old_name) = some eo)
    (hn : fsLookup σ.fs (joinPath σ.workdir new_name) = some en) :
    (action_rename_file old_name new_name σ).1.success = false
    ∧ (action_rename_file old_name new_name σ).1.error =
        some ("目标文件 \x27" ++ new_name ++ "\x27 已存在")
    ∧ (action_rename_file old_name new_name σ).2 = σ
    ∧ fsLookup (action_rename_file old_name new_name σ).2.fs
        (joinPath σ.workdir old_name) = some eo
    ∧ fsLookup (action_rename_file old_name new_name σ).2.fs
        (joinPath σ.workdir new_name) = some en := by
  unfold action_rename_file
  simp [fsExists, ho, hn, Res.success, Res.error, resErr]

/-- Witness for C10 at a concrete state: renaming a.txt onto the existing
b.txt fails and changes nothing. -/
theorem c10_rename_never_overwrites_witness :
    (action_rename_file "a.txt" "b.txt" exState).1.success = false
    ∧ (action_rename_file "a.txt" "b.txt" exState).1.error =
        some ("目标文件 \x27b.txt\x27 已存在")
    ∧ (action_rename_file "a.txt" "b.txt" exState).2 = exState
    ∧ fsLookup (action_rename_file "a.txt" "b.txt" exState).2.fs
        (joinPath exState.workdir "a.txt") = some .file
    ∧ fsLookup (action_rename_file "a.txt" "b.txt" exState).2.fs
        (joinPath exState.workdir "b.txt") = some .file :=
  c10_rename_never_overwrites exState "a.txt" "b.txt" .file .file rfl rfl

end SmartShell

namespace SmartShell

/-- C1 (amended) — the confirmation gate on a non-affirmative answer:
the underlying effect never happens (the returned state differs from the
input state only by the consumed answer), but the Result shapes differ by
handler.  Single and wildcard delete return success false with the
decline warning and confirmation_needed false; shell, script and git
write operations return success false with a cancel message in the error
field and neither a warning nor a confirmation_needed field. -/
theorem c1_decline_gate (W : World) (σ : AgentState) (ans : String)
    (rest : List String) (hq : σ.stdin = ans :: rest)
    (hno : answerYes ans = false) :
    (∀ name : String,
      name.data.contains '*' = false → name.data.contains '?' = false →
      action_delete_file W name false σ =
        (Res.mk false none
          (some ("用户拒绝删除 \x27" ++ name ++ "\x27，请跳过这个文件/目录"))
          (some false) none none none [] [] none, { σ with stdin := rest }))
    ∧ (∀ name : String,
      name.data.contains '*' = true →
      W.glob (W.resolvePath (joinPath σ.workdir name)) ≠ [] →
      action_delete_file W name false σ =
        (Res.mk false none
          (some ("用户拒绝批量删除 \x27" ++ name ++ "\x27, 请跳过这些文件/目录"))
          (some false) none none none [] [] none, { σ with stdin := rest }))
    ∧ (∀ cmd : String, stripChars cmd.data ≠ [] →
      action_shell_command W cmd σ =
        (resErr "用户取消了操作", { σ with stdin := rest }))
    ∧ (∀ fn ct : String,
      action_create_script fn ct σ =
        (resErr "用户取消了操作", { σ with stdin := rest }))
    ∧ (∀ gc : String, ∀ args : Option String,
      gitWriteCommands.contains (pyLower gc) = true →
      action_git W gc args σ =
        (Res.mk false (some "用户取消了Git写操作") none none (some "Git命令已取消")
          (some (match args with
                 | some a => "git " ++ gc ++ " " ++ a
                 | none => "git " ++ gc)) none [] [] none,
         { σ with stdin := rest })) := by
  refine ⟨?_, ?_, ?_, ?_, ?_⟩
  · intro name h1 h2
    have h1a : ¬ ('*' ∈ name.data) := by simpa using h1
    have h2a : ¬ ('?' ∈ name.data) := by simpa using h2
    unfold action_delete_file
    simp [h1a, h2a, readLine, hq, hno]
  · intro name h1 h2
    have h1a : '*' ∈ name.data := by simpa using h1
    unfold action_delete_file
    simp [h1a, readLine, hq, hno, List.isEmpty_iff, h2]
  · intro cmd h1
    unfold action_shell_command
    simp [h1, readLine, hq, hno]
  · intro fn ct
    unfold action_create_script
    simp [readLine, hq, hno]
  · intro gc args h1
    have h1a : pyLower gc ∈ gitWriteCommands := by simpa using h1
    unfold action_git
    simp [h1a, readLine, hq, hno]

/-- Witness for C1 (amended) at concrete inputs: answering n declines a
single delete, a wildcard delete, a shell command, a script creation and
a git commit, each with the stated Result shape and the answer consumed
as the only state change. -/
theorem c1_decline_gate_witness :
    (action_delete_file exW "a.txt" false exDecline =
      (Res.mk false none
        (some "用户拒绝删除 \x27a.txt\x27，请跳过这个文件/目录")
        (some false) none none none [] [] none, exState))
    ∧ (action_delete_file exWGlob "*.txt" false exDecline =
      (Res.mk false none
        (some "用户拒绝批量删除 \x27*.txt\x27, 请跳过这些文件/目录")
        (some false) none none none [] [] none, exState))
    ∧ (action_shell_command exW "echo hi" exDecline =
      (resErr "用户取消了操作", exState))
    ∧ (action_create_script "s.sh" "echo" exDecline =
      (resErr "用户取消了操作", exState))
    ∧ (action_git exW "commit" (some "-m x") exDecline =
      (Res.mk false (some "用户取消了Git写操作") none none (some "Git命令已取消")
        (some "git commit -m x") none [] [] none, exState)) := by
  have h := c1_decline_gate exW exDecline "n" [] rfl rfl
  have hg := c1_decline_gate exWGlob exDecline "n" [] rfl rfl
  exact ⟨h.1 "a.txt" rfl rfl, hg.2.1 "*.txt" rfl (by decide),
         h.2.2.1 "echo hi" (by decide),
         h.2.2.2.1 "s.sh" "echo",
         h.2.2.2.2 "commit" (some "-m x") rfl⟩

/-- C1 counterexample — the claim as stated fails for the shell handler:
dispatched through execute_command with a pending non-affirmative answer,
the decline Result has success false but carries an error field, no
warning field and no confirmation_needed field at all, while the claim
requires a warning and confirmation_needed false; the subprocess is
still, as required, never spawned. -/
theorem c1_shell_decline_shape :
    (execute_command exW 1 exShellCmd exDecline).1.success = false
    ∧ (execute_command exW 1 exShellCmd exDecline).1.warning = none
    ∧ (execute_command exW 1 exShellCmd exDecline).1.confirmationNeeded = none
    ∧ (execute_command exW 1 exShellCmd exDecline).1.error = some "用户取消了操作"
    ∧ (execute_command exW 1 exShellCmd exDecline).2.shellRuns = [] :=
  ⟨rfl, rfl, rfl, rfl, rfl⟩

end SmartShell

namespace SmartShell

/-- Action names some branch of the dispatcher recognizes. -/
def recognizedActions : List String :=
  ["cls", "batch", "list", "cd", "rename", "move", "delete", "mkdir", "info",
   "ffmpeg", "summarize", "shell", "script", "read", "analyze_image", "git",
   "diff", "knowledge_sync", "knowledge_stats", "knowledge_search"]

/-- C6 (amended) — parameter validation in the dispatcher: delete and
info try the alias names file_name, path, name and short-circuit to their
missing-parameter error without invoking any handler when all are absent
or falsy; delete with only the name alias present does invoke the delete
handler on it; ffmpeg, summarize, shell, script, read, analyze_image,
git, diff and (when the knowledge base is available) knowledge_search
likewise short-circuit to their own missing-parameter errors without
invoking the handler; but rename, move and mkdir with missing parameters
fall off the elif chain and return the same unknown-action Result as an
unrecognized action name does, and any action name outside the
recognized set returns that unknown-action Result. -/
theorem c6_param_validation (W : World) (f : Nat) (σ : AgentState)
    (params : Json) :
    (pstr params "file_name" = none → pstr params "path" = none →
      pstr params "name" = none →
      execute_command W (f + 1)
        (Json.obj [("action", Json.str "delete"), ("params", params)]) σ =
        (resErr "缺少文件名参数", σ))
    ∧ (∀ n : String, pstr params "file_name" = none → pstr params "path" = none →
      pstr params "name" = some n →
      execute_command W (f + 1)
        (Json.obj [("action", Json.str "delete"), ("params", params)]) σ =
        action_delete_file W n false (logCall σ "delete"))
    ∧ (pstr params "file_name" = none → pstr params "path" = none →
      pstr params "name" = none →
      execute_command W (f + 1)
        (Json.obj [("action", Json.str "info"), ("params", params)]) σ =
        (resErr "缺少文件名参数", σ))
    ∧ (pstr params "old_name" = none ∨ pstr params "new_name" = none →
      execute_command W (f + 1)
        (Json.obj [("action", Json.str "rename"), ("params", params)]) σ =
        (unknownActionRes, σ))
    ∧ (pstr params "source" = none ∨ pstr params "destination" = none →
      execute_command W (f + 1)
        (Json.obj [("action", Json.str "move"), ("params", params)]) σ =
        (unknownActionRes, σ))
    ∧ (pstr params "path" = none →
      execute_command W (f + 1)
        (Json.obj [("action", Json.str "mkdir"), ("params", params)]) σ =
        (unknownActionRes, σ))
    ∧ (pstr params "source" = none ∨ pstr params "target" = none →
      execute_command W (f + 1)
        (Json.obj [("action", Json.str "ffmpeg"), ("params", params)]) σ =
        (resErr "缺少 source 或 target 参数", σ))
    ∧ (pstr params "path" = none →
      execute_command W (f + 1)
        (Json.obj [("action", Json.str "summarize"), ("params", params)]) σ =
        (resErr "缺少path参数", σ))
    ∧ (pstr params "command" = none →
      execute_command W (f + 1)
        (Json.obj [("action", Json.str "shell"), ("params", params)]) σ =
        (resErr "缺少command参数", σ))
    ∧ (pstr params "filename" = none ∨ pstr params "content" = none →
      execute_command W (f + 1)
        (Json.obj [("action", Json.str "script"), ("params", params)]) σ =
        (resErr "缺少filename或content参数", σ))
    ∧ (pstr params "path" = none →
      execute_command W (f + 1)
        (Json.obj [("action", Json.str "read"), ("params", params)]) σ =
        (resErr "缺少path参数", σ))
    ∧ (pstr params "path" = none →
      execute_command W (f + 1)
        (Json.obj [("action", Json.str "analyze_image"), ("params", params)]) σ =
        (resErr "缺少path参数", σ))
    ∧ (pstr params "command" = none →
      execute_command W (f + 1)
        (Json.obj [("action", Json.str "git"), ("params", params)]) σ =
        (resErr "缺少command参数", σ))
    ∧ (pstr params "file1" = none ∨ pstr params "file2" = none →
      execute_command W (f + 1)
        (Json.obj [("action", Json.str "diff"), ("params", params)]) σ =
        (resErr "缺少file1或file2参数", σ))
    ∧ (W.hasKnowledge = true → pstr params "query" = none →
      execute_command W (f + 1)
        (Json.obj [("action", Json.str "knowledge_search"), ("params", params)])
        σ = (resErr "缺少搜索查询参数", σ))
    ∧ (∀ a : String, recognizedActions.contains a = false →
      execute_command W (f + 1)
        (Json.obj [("action", Json.str a), ("params", params)]) σ =
        (unknownActionRes, σ)) := by
  refine ⟨?_, ?_, ?_, ?_, ?_, ?_, ?_, ?_, ?_, ?_, ?_, ?_, ?_, ?_, ?_, ?_⟩
  · intro h1 h2 h3
    simp +decide [execute_command, paramsOf, Json.getKey, lookupLast, h1, h2, h3]
  · intro n h1 h2 h3
    simp +decide [execute_command, paramsOf, Json.getKey, lookupLast, h1, h2, h3]
  · intro h1 h2 h3
    simp +decide [execute_command, paramsOf, Json.getKey, lookupLast, h1, h2, h3]
  · intro h1
    rcases h1 with h1 | h1 <;>
      simp +decide [execute_command, paramsOf, Json.getKey, lookupLast, h1]
  · intro h1
    rcases h1 with h1 | h1 <;>
      simp +decide [execute_command, paramsOf, Json.getKey, lookupLast, h1]
  · intro h1
    simp +decide [execute_command, paramsOf, Json.getKey, lookupLast, h1]
  · intro h1
    rcases h1 with h1 | h1 <;>
      simp +decide [execute_command, paramsOf, Json.getKey, lookupLast, h1]
  · intro h1
    simp +decide [execute_command, paramsOf, Json.getKey, lookupLast, h1]
  · intro h1
    simp +decide [execute_command, paramsOf, Json.getKey, lookupLast, h1]
  · intro h1
    rcases h1 with h1 | h1 <;>
      simp +decide [execute_command, paramsOf, Json.getKey, lookupLast, h1]
  · intro h1
    simp +decide [execute_command, paramsOf, Json.getKey, lookupLast, h1]
  · intro h1
    simp +decide [execute_command, paramsOf, Json.getKey, lookupLast, h1]
  · intro h1
    simp +decide [execute_command, paramsOf, Json.getKey, lookupLast, h1]
  · intro h1
    rcases h1 with h1 | h1 <;>
      simp +decide [execute_command, paramsOf, Json.getKey, lookupLast, h1]
  · intro hK h1
    simp +decide [execute_command, paramsOf, Json.getKey, lookupLast, hK, h1]
  · intro a ha
    have ha2 : ¬ (a ∈ recognizedActions) := by simpa using ha
    simp [recognizedActions] at ha2
    obtain ⟨n1, n2, n3, n4, n5, n6, n7, n8, n9, n10, n11, n12, n13, n14, n15,
      n16, n17, n18, n19, n20⟩ := ha2
    simp [execute_command, paramsOf, Json.getKey, lookupLast,
      n1, n2, n3, n4, n5, n6, n7, n8, n9, n10, n11, n12, n13, n14, n15,
      n16, n17, n18, n19, n20]

/-- exW with the knowledge collaborator available, for the
knowledge_search missing-parameter example. -/
def exWKnow : World :=
  { exW with hasKnowledge := true }

/-- Witness for C6 (amended) at concrete inputs: an empty params object
makes delete return its missing-parameter error, makes rename return the
unknown-action Result, and a made-up action name returns the same
unknown-action Result; a delete whose target arrives under the name
alias invokes the delete handler; git, ffmpeg and (with the knowledge
base available) knowledge_search return their own missing-parameter
errors without any handler call. -/
theorem c6_param_validation_witness :
    execute_command exW 1 exDeleteNoParams exState = (resErr "缺少文件名参数", exState)
    ∧ execute_command exW 1 exRenameNoParams exState = (unknownActionRes, exState)
    ∧ execute_command exW 1
        (Json.obj [("action", Json.str "frobnicate"), ("params", Json.obj [])])
        exState = (unknownActionRes, exState)
    ∧ execute_command exW 1
        (Json.obj [("action", Json.str "delete"),
                   ("params", Json.obj [("name", Json.str "a.txt")])]) exState =
        action_delete_file exW "a.txt" false (logCall exState "delete")
    ∧ execute_command exW 1
        (Json.obj [("action", Json.str "git"), ("params", Json.obj [])]) exState =
        (resErr "缺少command参数", exState)
    ∧ execute_command exW 1
        (Json.obj [("action", Json.str "ffmpeg"), ("params", Json.obj [])]) exState =
        (resErr "缺少 source 或 target 参数", exState)
    ∧ execute_command exWKnow 1
        (Json.obj [("action", Json.str "knowledge_search"), ("params", Json.obj [])])
        exState = (resErr "缺少搜索查询参数", exState) := by
  obtain ⟨p1, p2, p3, p4, p5, p6, p7, p8, p9, p10, p11, p12, p13, p14, p15, p16⟩ :=
    c6_param_validation exW 0 exState (Json.obj [])
  have h1 := c6_param_validation exW 0 exState (Json.obj [("name", Json.str "a.txt")])
  have hK := c6_param_validation exWKnow 0 exState (Json.obj [])
  exact ⟨p1 rfl rfl rfl, p4 (Or.inl rfl), p16 "frobnicate" rfl,
         h1.2.1 "a.txt" rfl rfl rfl, p13 rfl, p7 (Or.inl rfl),
         hK.2.2.2.2.2.2.2.2.2.2.2.2.2.2.1 rfl rfl⟩

/-- C6 counterexample — a recognized action with a missing required
parameter does not always short-circuit to a missing-parameter error:
rename with an empty params object falls through to the unknown-action
Result (error 未知的操作类型), indistinguishable from an unrecognized
action, while delete with the same empty params returns its distinct
missing-parameter error, refuting the claimed uniform behaviour. -/
theorem c6_rename_missing_param_fallthrough :
    execute_command exW 1 exRenameNoParams exState = (unknownActionRes, exState)
    ∧ unknownActionRes.error = some "未知的操作类型"
    ∧ execute_command exW 1 exDeleteNoParams exState = (resErr "缺少文件名参数", exState)
    ∧ (resErr "缺少文件名参数").error ≠ unknownActionRes.error :=
  ⟨rfl, rfl, rfl, by decide⟩

end SmartShell

namespace SmartShell

/-- Build a batch command object around a list of sub-commands. -/
def mkBatch (cmds : List Json) : Json :=
  Json.obj [("action", Json.str "batch"),
            ("params", Json.obj [("commands", Json.arr cmds)])]

/-- A mkdir that fails against exState (the path already exists). -/
def exMkdirFail : Json :=
  Json.obj [("action", Json.str "mkdir"),
            ("params", Json.obj [("path", Json.str "a.txt")])]

/-- A mkdir that succeeds against exState. -/
def exMkdirOk : Json :=
  Json.obj [("action", Json.str "mkdir"),
            ("params", Json.obj [("path", Json.str "newdir")])]

/-- The two-child batch of the specification scenario: the first child
fails, the second succeeds. -/
def exBatchCmd : Json :=
  mkBatch [exMkdirFail, exMkdirOk]

/-- Shape of the batch loop: one pair per child in order, carrying the
child action names, with the aggregate flag the conjunction of the
recorded children. -/
theorem runBatchWith_spec (exec1 : Json → AgentState → Res × AgentState) :
    ∀ (cmds : List Json) (σ : AgentState),
      (runBatchWith exec1 cmds σ).1.length = cmds.length
      ∧ (runBatchWith exec1 cmds σ).1.map Prod.fst
          = cmds.map (fun c => c.getKey "action")
      ∧ (runBatchWith exec1 cmds σ).2.1
          = (runBatchWith exec1 cmds σ).1.all (fun p => p.2.success) := by
  intro cmds
  induction cmds with
  | nil => intro σ; simp [runBatchWith]
  | cons c rest ih =>
    intro σ
    rcases h1 : exec1 c σ with ⟨r, σ1⟩
    rcases h2 : runBatchWith exec1 rest σ1 with ⟨tl, ok, σ2⟩
    have ih1 := ih σ1
    rw [h2] at ih1
    have hok : ok = tl.all (fun p => p.2.success) := ih1.2.2
    simp [runBatchWith, h1, h2, ih1.1, ih1.2.1, hok]

/-- C2 — batch semantics: for every list of sub-commands the dispatcher
executes them strictly in order threading the state (the final state is
the batch loop state), never short-circuits, reports one (action, result)
pair per child in order, and aggregates success as the conjunction of the
children; in the concrete scenario where child A fails and child B
succeeds, the aggregate is false, the recorded children are [fail,
success], and the effect of B (the created directory) is present in the
final state, so B executed despite the failure of A. -/
theorem c2_batch_aggregation :
    (∀ (W : World) (f : Nat) (σ : AgentState) (cmds : List Json),
      (execute_command W (f + 1) (mkBatch cmds) σ).1.results.length = cmds.length
      ∧ (execute_command W (f + 1) (mkBatch cmds) σ).1.results.map Prod.fst
          = cmds.map (fun c => c.getKey "action")
      ∧ (execute_command W (f + 1) (mkBatch cmds) σ).1.success
          = (execute_command W (f + 1) (mkBatch cmds) σ).1.results.all
              (fun p => p.2.success)
      ∧ (execute_command W (f + 1) (mkBatch cmds) σ).2
          = (runBatchWith (fun c σ0 => execute_command W f c σ0) cmds σ).2.2)
    ∧ (execute_command exW 2 exBatchCmd exState).1.success = false
    ∧ (execute_command exW 2 exBatchCmd exState).1.results.map (fun p => p.2.success)
        = [false, true]
    ∧ (execute_command exW 2 exBatchCmd exState).1.results.length = 2
    ∧ fsExists (execute_command exW 2 exBatchCmd exState).2.fs "/home/user/newdir"
        = true := by
  refine ⟨?_, rfl, rfl, rfl, rfl⟩
  intro W f σ cmds
  rcases hr : runBatchWith (fun c σ0 => execute_command W f c σ0) cmds σ
    with ⟨pairs, ok, σ2⟩
  have hb : execute_command W (f + 1) (mkBatch cmds) σ =
      (Res.mk ok none none none none none none pairs [] none, σ2) := by
    simp +decide [execute_command, mkBatch, paramsOf, Json.getKey, lookupLast, hr]
  have hs := runBatchWith_spec (fun c σ0 => execute_command W f c σ0) cmds σ
  rw [hr] at hs
  rw [hb]
  exact ⟨hs.1, hs.2.1, hs.2.2, rfl⟩

end SmartShell

namespace SmartShell

/-- C5 — a reply with no extractable command, or whose extracted command
is done, dispatches nothing: the exchange makes exactly the one model
call that produced the reply, executes zero commands, leaves the state
untouched and returns to awaiting user input. -/
theorem c5_done_or_none_no_dispatch (W : World) (ser : Json → Res → String)
    (f : Nat) (σ : AgentState) (ni reply : String)
    (h : extract_json_command reply = none
         ∨ ∃ c, extract_json_command reply = some c ∧ isDoneCmd c = true) :
    runExchange W ser f σ ni [reply] = ⟨[ni], [], [], σ, true⟩ := by
  rcases h with h | ⟨c, hc, hd⟩
  · simp [runExchange, h]
  · simp [runExchange, hc, hd]

/-- The done reply of the specification scenario. -/
def exDoneReply : String := "好的，全部完成。\n\x7b\"action\": \"done\"\x7d"

/-- The command extracted from exDoneReply. -/
def exDoneCmd : Json := Json.obj [("action", Json.str "done")]

/-- Witness for C5: a concrete done reply yields one model call, zero
dispatches, an unchanged state and a return to awaiting input. -/
theorem c5_done_or_none_no_dispatch_witness :
    runExchange exW exSer 1 exState "u" [exDoneReply] =
      ⟨["u"], [], [], exState, true⟩ :=
  c5_done_or_none_no_dispatch exW exSer 1 exState "u" exDoneReply
    (Or.inr ⟨exDoneCmd, rfl, rfl⟩)

/-- C3 — loop termination: after a command executes, the loop returns to
awaiting user input exactly when the result succeeded and the command
carried last_action true, and in every other case it calls the model
again with the serialized execution result as the next input; for a
two-reply trace whose first command does not carry last_action and whose
second succeeds with last_action true, exactly two model calls happen,
exactly the two commands execute, and the exchange ends awaiting input
(no third model call). -/
theorem c3_loop_termination :
    (∀ (W : World) (ser : Json → Res → String) (f : Nat) (σ : AgentState)
        (ni reply : String) (rest : List String) (cmd : Json) (r : Res)
        (σ2 : AgentState),
      extract_json_command reply = some cmd → isDoneCmd cmd = false →
      execute_command W f cmd σ = (r, σ2) →
      ((r.success && lastActionTrue cmd) = true →
        runExchange W ser f σ ni (reply :: rest) = ⟨[ni], [cmd], [r], σ2, true⟩)
      ∧ ((r.success && lastActionTrue cmd) = false →
        runExchange W ser f σ ni (reply :: rest) =
          ⟨ni :: (runExchange W ser f σ2 ("命令执行结果：" ++ ser cmd r) rest).modelInputs,
           cmd :: (runExchange W ser f σ2 ("命令执行结果：" ++ ser cmd r) rest).executed,
           r :: (runExchange W ser f σ2 ("命令执行结果：" ++ ser cmd r) rest).results,
           (runExchange W ser f σ2 ("命令执行结果：" ++ ser cmd r) rest).finalState,
           (runExchange W ser f σ2 ("命令执行结果：" ++ ser cmd r) rest).ended⟩))
    ∧ (∀ (W : World) (ser : Json → Res → String) (f : Nat) (σ : AgentState)
        (ni rep1 rep2 : String) (c1 c2 : Json) (r1 r2 : Res) (σ1 σ2 : AgentState),
      extract_json_command rep1 = some c1 → isDoneCmd c1 = false →
      execute_command W f c1 σ = (r1, σ1) →
      (r1.success && lastActionTrue c1) = false →
      extract_json_command rep2 = some c2 → isDoneCmd c2 = false →
      execute_command W f c2 σ1 = (r2, σ2) →
      (r2.success && lastActionTrue c2) = true →
      runExchange W ser f σ ni [rep1, rep2] =
        ⟨[ni, "命令执行结果：" ++ ser c1 r1], [c1, c2], [r1, r2], σ2, true⟩) := by
  constructor
  · intro W ser f σ ni reply rest cmd r σ2 hx hd hea
    constructor
    · intro ht
      simp [runExchange, hx, hd, hea, ht]
    · intro hf
      simp [runExchange, hx, hd, hea, hf]
  · intro W ser f σ ni rep1 rep2 c1 c2 r1 r2 σ1 σ2 hx1 hd1 he1 hf1 hx2 hd2 he2 ht2
    simp [runExchange, hx1, hd1, he1, hf1, hx2, hd2, he2, ht2]

end SmartShell

namespace SmartShell

/-- First model reply of the two-step scenario: prose plus a mkdir
command without last_action termination. -/
def exRep1 : String :=
  "先创建目录一\n\x7b\"action\": \"mkdir\", \"params\": \x7b\"path\": \"d1\"\x7d, \"last_action\": false\x7d"

/-- Second model reply: a mkdir command carrying last_action true. -/
def exRep2 : String :=
  "\x7b\"action\": \"mkdir\", \"params\": \x7b\"path\": \"d2\"\x7d, \"last_action\": true\x7d"

/-- The command extracted from exRep1. -/
def exCmd1 : Json :=
  Json.obj [("action", Json.str "mkdir"),
            ("params", Json.obj [("path", Json.str "d1")]),
            ("last_action", Json.bool false)]

/-- The command extracted from exRep2. -/
def exCmd2 : Json :=
  Json.obj [("action", Json.str "mkdir"),
            ("params", Json.obj [("path", Json.str "d2")]),
            ("last_action", Json.bool true)]

/-- Result of executing exCmd1 against exState. -/
def exRes1 : Res := resOk "成功创建文件夹 \x27d1\x27"

/-- Result of executing exCmd2 against the state after exCmd1. -/
def exRes2 : Res := resOk "成功创建文件夹 \x27d2\x27"

/-- State after exCmd1. -/
def exStateAfter1 : AgentState :=
  ⟨"/home/user",
   [("/home/user/d1", .dir), ("/home/user", .dir),
    ("/home/user/a.txt", .file), ("/home/user/b.txt", .file)],
   [], ["mkdir"], [], []⟩

/-- State after exCmd2. -/
def exStateAfter2 : AgentState :=
  ⟨"/home/user",
   [("/home/user/d2", .dir), ("/home/user/d1", .dir), ("/home/user", .dir),
    ("/home/user/a.txt", .file), ("/home/user/b.txt", .file)],
   [], ["mkdir", "mkdir"], [], []⟩

/-- Witness for C3: on the concrete two-reply trace, the loop makes
exactly two model calls (the second carrying the serialized execution
result), executes exactly the two commands, and ends awaiting input. -/
theorem c3_loop_termination_witness :
    runExchange exW exSer 1 exState "用户输入" [exRep1, exRep2] =
      ⟨["用户输入", "命令执行结果：entry"], [exCmd1, exCmd2], [exRes1, exRes2],
       exStateAfter2, true⟩ :=
  c3_loop_termination.2 exW exSer 1 exState "用户输入" exRep1 exRep2 exCmd1 exCmd2
    exRes1 exRes2 exStateAfter1 exStateAfter2 rfl rfl rfl rfl rfl rfl rfl rfl

end SmartShell

namespace SmartShell

/-- The text whose first fenced block is a valid action-less object and
whose second fenced block is a valid multi-line action object. -/
def c4Text : String :=
  "```\n\x7b\"x\": 1\x7d\n```\nmid\n```\n\x7b\n\"action\": \"done\"\n\x7d\n```"

/-- C4 counterexample — the extractor misses a well-formed fenced block:
on c4Text the lazy regexp anchors at the first fence, must reach the
literal "action" that only occurs in the second block, and so captures a
span running across both fences whose parse fails; the line fallback also
fails because the action object spans several lines.  The code extractor
returns none although the second fenced block is exactly a valid JSON
object with an "action" key, which the spec-side extractor returns. -/
theorem c4_fence_spanning_counterexample :
    extract_json_command c4Text = none
    ∧ specExtractCommand c4Text = some (Json.obj [("action", Json.str "done")])
    ∧ pyJsonLoads "\x7b\n\"action\": \"done\"\n\x7d" =
        some (Json.obj [("action", Json.str "done")]) :=
  ⟨rfl, rfl, rfl⟩

/-- Every Result of the regexp scan carries an "action" key. -/
theorem firstGoodMatch_hasAction :
    ∀ (ms : List (List Char)) (j : Json),
      firstGoodMatch ms = some j → j.hasKey "action" = true := by
  intro ms
  induction ms with
  | nil => intro j h; simp [firstGoodMatch] at h
  | cons m rest ih =>
    intro j h
    unfold firstGoodMatch at h
    cases hp : pyJsonLoads ⟨stripChars m⟩ with
    | none => rw [hp] at h; exact ih j h
    | some j2 =>
      rw [hp] at h
      by_cases hk : j2.hasKey "action" = true
      · simp [hk] at h; rw [← h]; exact hk
      · simp [Bool.not_eq_true] at hk; simp [hk] at h; exact ih j h

/-- Every Result of the line fallback carries an "action" key. -/
theorem lineScan_hasAction :
    ∀ (ls : List (List Char)) (j : Json),
      lineScan ls = some j → j.hasKey "action" = true := by
  intro ls
  induction ls with
  | nil => intro j h; simp [lineScan] at h
  | cons l rest ih =>
    intro j h
    unfold lineScan at h
    by_cases hb : ((match stripChars l with
        | c :: _ => c = '{'
        | [] => false) && containsSub actionLit (stripChars l)) = true
    · rw [if_pos hb] at h
      cases hp : pyJsonLoads ⟨stripChars l⟩ with
      | none => rw [hp] at h; exact ih j h
      | some j2 =>
        rw [hp] at h
        by_cases hk : j2.hasKey "action" = true
        · simp [hk] at h; rw [← h]; exact hk
        · simp [Bool.not_eq_true] at hk; simp [hk] at h; exact ih j h
    · rw [if_neg hb] at h; exact ih j h

/-- C4 (amended) — the extractor never raises and anything it returns is
a JSON object containing an "action" key; it scans the lazy regexp
captures first and then the line fallback, but a capture may span across
fences when an earlier fenced object lacks the literal "action", so a
valid later block can be missed (counterexample above). -/
theorem c4_extract_action_key (text : String) (j : Json)
    (h : extract_json_command text = some j) : j.hasKey "action" = true := by
  unfold extract_json_command at h
  dsimp only [] at h
  cases hf : firstGoodMatch (findAllMatches text.data (text.data.length + 2) 0) with
  | some j2 =>
    rw [hf] at h
    simp at h
    rw [← h]
    exact firstGoodMatch_hasAction _ _ hf
  | none =>
    rw [hf] at h
    simp at h
    exact lineScan_hasAction _ _ h

/-- Witness for C4 (amended): a concrete reply line is extracted and the
returned object indeed carries the "action" key. -/
theorem c4_extract_action_key_witness :
    extract_json_command "\x7b\"action\": \"list\", \"params\": \x7b\x7d\x7d" =
      some (Json.obj [("action", Json.str "list"), ("params", Json.obj [])])
    ∧ (Json.obj [("action", Json.str "list"), ("params", Json.obj [])]).hasKey
        "action" = true :=
  ⟨rfl, c4_extract_action_key "\x7b\"action\": \"list\", \"params\": \x7b\x7d\x7d"
    (Json.obj [("action", Json.str "list"), ("params", Json.obj [])]) rfl⟩

end SmartShell

namespace SmartShell

/-- String append is associative (strings are character lists). -/
theorem strAppendAssoc (a b c : String) : a ++ b ++ c = a ++ (b ++ c) := by
  apply String.ext
  simp

/-- Appending the empty string is the identity. -/
theorem strAppendNil (a : String) : a ++ "" = a := by
  apply String.ext
  simp

/-- A yield step of the generator changes no history, keeps the captured
user input, extends the buffer by exactly the yielded delta, consumes at
least one line event, and preserves freedom from transport failures. -/
theorem genNextAux_yield :
    ∀ (evs : List LineEv) (u : String) (h : List Msg) (buf d : String)
      (s2 : GenState), genNextAux u h buf evs = .yield d s2 →
      s2.hist = h ∧ s2.userInput = u ∧ s2.buffer = buf ++ d
      ∧ s2.remaining.length < evs.length
      ∧ (errorFree evs = true → errorFree s2.remaining = true) := by
  intro evs
  induction evs with
  | nil => intro u h buf d s2 hy; simp [genNextAux] at hy
  | cons ev rest ih =>
    intro u h buf d s2 hy
    cases ev with
    | fail e => simp [genNextAux] at hy
    | line l =>
      cases hc : classifyLine l with
      | skip =>
        rw [genNextAux, hc] at hy
        have h2 := ih u h buf d s2 hy
        refine ⟨h2.1, h2.2.1, h2.2.2.1, ?_, ?_⟩
        · exact Nat.lt_succ_of_lt h2.2.2.2.1
        · intro he
          have he2 : errorFree rest = true := by simpa [errorFree] using he
          exact h2.2.2.2.2 he2
      | finish => rw [genNextAux, hc] at hy; simp at hy
      | yieldD d0 =>
        rw [genNextAux, hc] at hy
        simp at hy
        obtain ⟨hd, hs⟩ := hy
        subst hd
        rw [← hs]
        refine ⟨rfl, rfl, rfl, Nat.lt_succ_self _, ?_⟩
        intro he
        simpa [errorFree] using he

/-- A normal stop of the generator on a failure-free stream appends
exactly the user entry and the assistant entry holding the buffer. -/
theorem genNextAux_stop :
    ∀ (evs : List LineEv) (u : String) (h : List Msg) (buf : String)
      (s2 : GenState), errorFree evs = true → genNextAux u h buf evs = .stop s2 →
      s2.hist = h ++ [⟨"user", u⟩, ⟨"assistant", buf⟩] := by
  intro evs
  induction evs with
  | nil =>
    intro u h buf s2 _ hy
    simp [genNextAux] at hy
    rw [← hy]
  | cons ev rest ih =>
    intro u h buf s2 he hy
    cases ev with
    | fail e => simp [errorFree] at he
    | line l =>
      have he2 : errorFree rest = true := by simpa [errorFree] using he
      cases hc : classifyLine l with
      | skip => rw [genNextAux, hc] at hy; exact ih u h buf s2 he2 hy
      | finish =>
        rw [genNextAux, hc] at hy
        simp at hy
        rw [← hy]
      | yieldD d0 => rw [genNextAux, hc] at hy; simp at hy

/-- A transport failure escaping the generator leaves the history
untouched: no partial append ever happens. -/
theorem genNextAux_raise_hist :
    ∀ (evs : List LineEv) (u : String) (h : List Msg) (buf e : String)
      (s2 : GenState), genNextAux u h buf evs = .raise e s2 → s2.hist = h := by
  intro evs
  induction evs with
  | nil => intro u h buf e s2 hy; simp [genNextAux] at hy
  | cons ev rest ih =>
    intro u h buf e s2 hy
    cases ev with
    | fail e2 =>
      simp [genNextAux] at hy
      rw [← hy.2]
    | line l =>
      cases hc : classifyLine l with
      | skip => rw [genNextAux, hc] at hy; exact ih u h buf e s2 hy
      | finish => rw [genNextAux, hc] at hy; simp at hy
      | yieldD d0 => rw [genNextAux, hc] at hy; simp at hy

/-- On a failure-free stream the generator never raises. -/
theorem genNextAux_no_raise :
    ∀ (evs : List LineEv) (u : String) (h : List Msg) (buf e : String)
      (s2 : GenState), errorFree evs = true →
      genNextAux u h buf evs = .raise e s2 → False := by
  intro evs
  induction evs with
  | nil => intro u h buf e s2 _ hy; simp [genNextAux] at hy
  | cons ev rest ih =>
    intro u h buf e s2 he hy
    cases ev with
    | fail e2 => simp [errorFree] at he
    | line l =>
      have he2 : errorFree rest = true := by simpa [errorFree] using he
      cases hc : classifyLine l with
      | skip => rw [genNextAux, hc] at hy; exact ih u h buf e s2 he2 hy
      | finish => rw [genNextAux, hc] at hy; simp at hy
      | yieldD d0 => rw [genNextAux, hc] at hy; simp at hy

/-- Draining a failure-free generator with adequate fuel reports no
failure and appends exactly the user entry and one assistant entry whose
content is the buffer extended by the concatenation of all yielded
deltas. -/
theorem genDrainAux_spec :
    ∀ (n : Nat) (s : GenState), s.remaining.length < n →
      errorFree s.remaining = true →
      (genDrainAux n s).2.1 = none
      ∧ (genDrainAux n s).2.2.hist =
          s.hist ++ [⟨"user", s.userInput⟩,
                     ⟨"assistant", s.buffer ++ concatStr (genDrainAux n s).1⟩] := by
  intro n
  induction n with
  | zero => intro s hl; exact absurd hl (Nat.not_lt_zero _)
  | succ n ih =>
    intro s hl he
    cases hg : genNext s with
    | stop s2 =>
      have h2 := genNextAux_stop s.remaining s.userInput s.hist s.buffer s2 he hg
      simp [genDrainAux, hg, concatStr, h2, strAppendNil]
    | raise e s2 => exact absurd hg (by
        intro hy
        exact genNextAux_no_raise s.remaining s.userInput s.hist s.buffer e s2 he hy)
    | yield d s2 =>
      have h2 := genNextAux_yield s.remaining s.userInput s.hist s.buffer d s2 hg
      have hlt : s2.remaining.length < n :=
        Nat.lt_of_lt_of_le h2.2.2.2.1 (Nat.lt_succ_iff.mp hl)
      have ihs := ih s2 hlt (h2.2.2.2.2 he)
      simp [genDrainAux, hg]
      rcases hd : genDrainAux n s2 with ⟨ds, err, s3⟩
      rw [hd] at ihs
      have he1 : err = none := ihs.1
      have he2 : s3.hist = s2.hist ++
          [⟨"user", s2.userInput⟩, ⟨"assistant", s2.buffer ++ concatStr ds⟩] := ihs.2
      rw [he1, he2, h2.1, h2.2.1, h2.2.2.1]
      simp [concatStr, strAppendAssoc]

end SmartShell

namespace SmartShell

/-- C7 — the streamed history append: while the generator is still
yielding deltas, the conversation history is untouched (no partial
append), and once the delta stream is fully drained without failure the
history has been extended by exactly one user entry and one assistant
entry whose content is the concatenation of all yielded deltas. -/
theorem c7_single_history_append :
    (∀ (s : GenState) (d : String) (s2 : GenState),
      genNext s = .yield d s2 → s2.hist = s.hist)
    ∧ (∀ (s : GenState) (ds : List String) (err : Option String)
        (s2 : GenState), errorFree s.remaining = true →
      genDrain s = (ds, err, s2) →
      err = none
      ∧ s2.hist = s.hist ++ [⟨"user", s.userInput⟩,
                             ⟨"assistant", s.buffer ++ concatStr ds⟩]) := by
  constructor
  · intro s d s2 hy
    exact (genNextAux_yield s.remaining s.userInput s.hist s.buffer d s2 hy).1
  · intro s ds err s2 he hd
    have h := genDrainAux_spec (s.remaining.length + 1) s (Nat.lt_succ_self _) he
    rw [show genDrainAux (s.remaining.length + 1) s = genDrain s from rfl, hd] at h
    exact h

/-- The line events of the worked streaming example: a delta, an empty
line, an empty delta, a malformed event, a second delta, the DONE marker
and an event after it that is never read. -/
def exLines : List LineEv :=
  [.line "data: \x7b\"choices\": [\x7b\"delta\": \x7b\"content\": \"Hel\"\x7d\x7d]\x7d",
   .line "",
   .line "data: \x7b\"choices\": [\x7b\"delta\": \x7b\"content\": \"\"\x7d\x7d]\x7d",
   .line "data: junk not json",
   .line "data: \x7b\"choices\": [\x7b\"delta\": \x7b\"content\": \"lo\"\x7d\x7d]\x7d",
   .line "data: [DONE]",
   .line "data: \x7b\"choices\": [\x7b\"delta\": \x7b\"content\": \"IGNORED\"\x7d\x7d]\x7d"]

/-- A fresh generator over exLines with a prior exchange in the history. -/
def exGen : GenState :=
  ⟨exLines, "", "你好", [⟨"user", "旧输入"⟩, ⟨"assistant", "旧回复"⟩]⟩

/-- Witness for C7: draining the concrete stream reports no failure and
appends exactly the user entry and the assistant entry Hello (the
concatenation of the two yielded deltas), after the prior history. -/
theorem c7_single_history_append_witness :
    (genDrain exGen).2.1 = none
    ∧ (genDrain exGen).2.2.hist =
        exGen.hist ++ [⟨"user", "你好"⟩, ⟨"assistant", "Hello"⟩] := by
  have h := c7_single_history_append.2 exGen (genDrain exGen).1
    (genDrain exGen).2.1 (genDrain exGen).2.2 rfl rfl
  exact ⟨h.1, h.2⟩

/-- The stream whose second read raises a transport failure. -/
def c8Lines : List LineEv :=
  [.line "data: \x7b\"choices\": [\x7b\"delta\": \x7b\"content\": \"hi\"\x7d\x7d]\x7d",
   .fail "Connection reset"]

/-- The generator call_ai hands back over c8Lines. -/
def c8Gen : GenState := ⟨c8Lines, "", "u", []⟩

/-- C8 counterexample — a transport failure while reading the delta
stream is not absorbed inside the adapter: call_ai returns the generator
without incident, and draining it (which the orchestration loop does)
surfaces the failure outside the adapter, after the first delta and with
no history appended; the adapter therefore does not catch every
transport error, refuting the claim. -/
theorem c8_stream_failure_escapes_adapter :
    call_ai_stream (.ok c8Lines) "u" [] "openai" "model" = Sum.inr c8Gen
    ∧ (genDrain c8Gen).1 = ["hi"]
    ∧ (genDrain c8Gen).2.1 = some "Connection reset"
    ∧ (genDrain c8Gen).2.2.hist = [] :=
  ⟨rfl, rfl, rfl, rfl⟩

/-- C8 (amended) — where transport failures are absorbed: failures of the
request itself are caught inside call_ai and become a textual error
reply; failures while reading the stream escape the generator with the
history unchanged and are absorbed by the orchestration loop instead,
whose consumption always produces the partial textual reply from the
deltas yielded before the failure. -/
theorem c8_transport_error_boundaries :
    (∀ (e u p m : String) (hist : List Msg),
      call_ai_stream (.error e) u hist p m = .inl (adapterErrText e p m))
    ∧ (∀ (s : GenState) (e : String) (s2 : GenState),
      genNext s = .raise e s2 → s2.hist = s.hist)
    ∧ (∀ g : GenState,
      loopConsume g = (concatStr (genDrain g).1, (genDrain g).2.2)) := by
  refine ⟨fun e u p m hist => rfl, ?_, ?_⟩
  · intro s e s2 hy
    exact genNextAux_raise_hist s.remaining s.userInput s.hist s.buffer e s2 hy
  · intro g
    unfold loopConsume
    rcases hd : genDrain g with ⟨ds, err, s2⟩
    simp [hd]

/-- Witness for C8 (amended): a concrete request failure becomes the
textual reply, the concrete mid-stream failure leaves the history of the
raising step unchanged, and the loop consumption of the failing stream
is the partial reply hi. -/
theorem c8_transport_error_boundaries_witness :
    call_ai_stream (.error "timeout") "u" [] "openai" "m" =
      .inl (adapterErrText "timeout" "openai" "m")
    ∧ (GenState.mk [] "hi" "u" []).hist =
        (GenState.mk [LineEv.fail "Connection reset"] "hi" "u" []).hist
    ∧ loopConsume c8Gen = ("hi", (genDrain c8Gen).2.2) := by
  refine ⟨c8_transport_error_boundaries.1 "timeout" "u" "openai" "m" [], ?_, ?_⟩
  · exact c8_transport_error_boundaries.2.1
      (GenState.mk [LineEv.fail "Connection reset"] "hi" "u" []) "Connection reset"
      (GenState.mk [] "hi" "u" []) rfl
  · exact c8_transport_error_boundaries.2.2 c8Gen

end SmartShell

namespace SmartShell

/-- input() only pops the pending-answer queue. -/
theorem readLine_workdir (σ : AgentState) : (readLine σ).2.workdir = σ.workdir := by
  unfold readLine
  cases hs : σ.stdin <;> simp

/-- Logging a handler call keeps the work directory. -/
theorem logCall_workdir (σ : AgentState) (n : String) :
    (logCall σ n).workdir = σ.workdir := rfl

/-- Renaming never touches the work directory. -/
theorem rename_workdir (o n : String) (σ : AgentState) :
    (action_rename_file o n σ).2.workdir = σ.workdir := by
  unfold action_rename_file
  dsimp only
  split
  · rfl
  · split
    · rfl
    · split <;> rfl

/-- mkdir never touches the work directory. -/
theorem mkdir_workdir (d : String) (σ : AgentState) :
    (action_create_directory d σ).2.workdir = σ.workdir := by
  unfold action_create_directory
  dsimp only
  split <;> rfl

/-- Single deletion never touches the work directory. -/
theorem deleteSingle_workdir (n : String) (σ : AgentState) :
    (deleteSingle n σ).2.workdir = σ.workdir := by
  unfold deleteSingle
  dsimp only
  split
  · rfl
  · split <;> rfl

/-- Deletion (with or without wildcards) never touches the work
directory. -/
theorem delete_workdir (W : World) (n : String) (c : Bool) (σ : AgentState) :
    (action_delete_file W n c σ).2.workdir = σ.workdir := by
  rcases hre : readLine σ with ⟨ans, σ1⟩
  have h1 : σ1.workdir = σ.workdir := by
    have h2 := readLine_workdir σ
    rw [hre] at h2
    exact h2
  unfold action_delete_file
  dsimp only
  split
  · split
    · rfl
    · split
      · rw [hre]
        dsimp only
        split
        · exact h1
        · rcases hda : deleteAll σ1.fs (W.glob (W.resolvePath (joinPath σ.workdir n)))
            with ⟨entries, fs2⟩
          simp [hda, h1]
      · rcases hda : deleteAll σ.fs (W.glob (W.resolvePath (joinPath σ.workdir n)))
          with ⟨entries, fs2⟩
        simp [hda]
  · split
    · rw [hre]
      dsimp only
      split
      · exact h1
      · rw [deleteSingle_workdir n σ1]
        exact h1
    · exact deleteSingle_workdir n σ

/-- Shell execution never touches the work directory. -/
theorem shell_workdir (W : World) (c : String) (σ : AgentState) :
    (action_shell_command W c σ).2.workdir = σ.workdir := by
  rcases hre : readLine σ with ⟨ans, σ1⟩
  have h1 : σ1.workdir = σ.workdir := by
    have h2 := readLine_workdir σ
    rw [hre] at h2
    exact h2
  unfold action_shell_command
  split
  · rfl
  · rw [hre]
    dsimp only
    split
    · exact h1
    · split <;> simp [h1]

/-- Script creation never touches the work directory. -/
theorem script_workdir (fn ct : String) (σ : AgentState) :
    (action_create_script fn ct σ).2.workdir = σ.workdir := by
  rcases hre : readLine σ with ⟨ans, σ1⟩
  have h1 : σ1.workdir = σ.workdir := by
    have h2 := readLine_workdir σ
    rw [hre] at h2
    exact h2
  unfold action_create_script
  rw [hre]
  dsimp only
  split
  · exact h1
  · split
    · exact h1
    · split
      · exact h1
      · simp [h1]

/-- The git subprocess part never touches the work directory. -/
theorem gitGo_workdir (W : World) (full : String) (σ : AgentState) :
    (gitGo W full σ).2.workdir = σ.workdir := by
  unfold gitGo
  split
  · rfl
  · rcases hgr : W.gitRun full σ.workdir with ⟨rc, out, err⟩
    simp [hgr]
    split <;> rfl

/-- action_git never touches the work directory. -/
theorem git_workdir (W : World) (c : String) (args : Option String)
    (σ : AgentState) : (action_git W c args σ).2.workdir = σ.workdir := by
  rcases hre : readLine σ with ⟨ans, σ1⟩
  have h1 : σ1.workdir = σ.workdir := by
    have h2 := readLine_workdir σ
    rw [hre] at h2
    exact h2
  unfold action_git
  dsimp only
  split
  · rw [hre]
    dsimp only
    split
    · exact h1
    · rw [gitGo_workdir, h1]
  · exact gitGo_workdir W _ σ

/-- The batch loop preserves the work directory when every member
execution does. -/
theorem runBatchWith_workdir (exec1 : Json → AgentState → Res × AgentState)
    (cmds : List Json)
    (hp : ∀ c, c ∈ cmds → ∀ σ0, (exec1 c σ0).2.workdir = σ0.workdir) :
    ∀ σ, (runBatchWith exec1 cmds σ).2.2.workdir = σ.workdir := by
  induction cmds with
  | nil => intro σ; simp [runBatchWith]
  | cons c rest ih =>
    intro σ
    rcases h1 : exec1 c σ with ⟨r, σ1⟩
    rcases h2 : runBatchWith exec1 rest σ1 with ⟨tl, ok, σ2⟩
    have hm : σ1.workdir = σ.workdir := by
      have h3 := hp c (List.mem_cons_self c rest) σ
      rw [h1] at h3
      exact h3
    have ihr := ih (fun c2 hc2 σ0 => hp c2 (List.mem_cons_of_mem c hc2) σ0) σ1
    rw [h2] at ihr
    have ihr2 : σ2.workdir = σ1.workdir := ihr
    simp [runBatchWith, h1, h2, ihr2, hm]

end SmartShell

namespace SmartShell

/-- The command tree mentions no cd dispatch anywhere (descending through
batch children), to the given nesting depth. -/
def cmdNoCd : Nat → Json → Bool
  | 0, _ => true
  | f + 1, cmd =>
    match cmd.getKey "action" with
    | some (Json.str a) =>
      if a = "cd" then false
      else if a = "batch" then
        match (paramsOf cmd).getKey "commands" with
        | some (.arr xs) => xs.all (cmdNoCd f)
        | _ => true
      else true
    | _ => true

/-- Dispatching a command whose tree mentions no cd leaves the work
directory unchanged. -/
theorem exec_workdir_noCd :
    ∀ (f : Nat) (W : World) (cmd : Json) (σ : AgentState),
      cmdNoCd f cmd = true →
      ((execute_command W f cmd σ).2).workdir = σ.workdir := by
  intro f
  induction f with
  | zero => intro W cmd σ _; rfl
  | succ f ih =>
    intro W cmd σ h
    unfold cmdNoCd at h
    unfold execute_command
    dsimp only
    cases hA : cmd.getKey "action" with
    | none => simp [hA]
    | some j =>
      rw [hA] at h
      cases j with
      | str a =>
        try dsimp only at h
        simp only [hA]
        try dsimp only
        by_cases h1 : a = "cls"
        · subst h1; simp +decide
        by_cases h2 : a = "batch"
        · subst h2
          simp +decide at h
          cases hc : (paramsOf cmd).getKey "commands" with
          | none =>
            simp +decide [hc, runBatchWith]
          | some jv =>
            rw [hc] at h
            cases jv with
            | arr xs =>
              dsimp only at h
              simp only [List.all_eq_true] at h
              rcases hrb : runBatchWith (fun c σ0 => execute_command W f c σ0) xs σ
                with ⟨pairs, ok, σ2⟩
              have hw := runBatchWith_workdir (fun c σ0 => execute_command W f c σ0)
                xs (fun c hc2 σ0 => ih W c σ0 (h c hc2)) σ
              rw [hrb] at hw
              simp +decide [hc, hrb]
              exact hw
            | null => simp +decide [hc, runBatchWith]
            | bool b => simp +decide [hc, runBatchWith]
            | num r => simp +decide [hc, runBatchWith]
            | str s => simp +decide [hc, runBatchWith]
            | obj kvs => simp +decide [hc, runBatchWith]
        by_cases h3 : a = "list"
        · subst h3; simp +decide [logCall]
        by_cases h4 : a = "cd"
        · subst h4; simp +decide at h
        by_cases h5 : a = "rename"
        · subst h5
          cases hpo : pstr (paramsOf cmd) "old_name" <;>
            cases hpn : pstr (paramsOf cmd) "new_name" <;>
            simp +decide [hpo, hpn, rename_workdir, logCall]
        by_cases h6 : a = "move"
        · subst h6
          cases hpo : pstr (paramsOf cmd) "source" <;>
            cases hpn : pstr (paramsOf cmd) "destination" <;>
            simp +decide [hpo, hpn, logCall]
        by_cases h7 : a = "delete"
        · subst h7
          cases hpo : pstr (paramsOf cmd) "file_name" <|> pstr (paramsOf cmd) "path"
              <|> pstr (paramsOf cmd) "name" <;>
            simp +decide [hpo, delete_workdir, logCall]
        by_cases h8 : a = "mkdir"
        · subst h8
          cases hpo : pstr (paramsOf cmd) "path" <;>
            simp +decide [hpo, mkdir_workdir, logCall]
        by_cases h9 : a = "info"
        · subst h9
          cases hpo : pstr (paramsOf cmd) "file_name" <|> pstr (paramsOf cmd) "path"
              <|> pstr (paramsOf cmd) "name" <;>
            simp +decide [hpo, logCall]
        by_cases h10 : a = "ffmpeg"
        · subst h10
          cases hpo : pstr (paramsOf cmd) "source" <;>
            cases hpn : pstr (paramsOf cmd) "target" <;>
            simp +decide [hpo, hpn, logCall]
        by_cases h11 : a = "summarize"
        · subst h11
          cases hpo : pstr (paramsOf cmd) "path" <;> simp +decide [hpo, logCall]
        by_cases h12 : a = "shell"
        · subst h12
          cases hpo : pstr (paramsOf cmd) "command" <;>
            simp +decide [hpo, shell_workdir, logCall]
        by_cases h13 : a = "script"
        · subst h13
          cases hpo : pstr (paramsOf cmd) "filename" <;>
            cases hpn : pstr (paramsOf cmd) "content" <;>
            simp +decide [hpo, hpn, script_workdir, logCall]
        by_cases h14 : a = "read"
        · subst h14
          cases hpo : pstr (paramsOf cmd) "path" <;> simp +decide [hpo, logCall]
        by_cases h15 : a = "analyze_image"
        · subst h15
          cases hpo : pstr (paramsOf cmd) "path" <;> simp +decide [hpo, logCall]
        by_cases h16 : a = "git"
        · subst h16
          cases hpo : pstr (paramsOf cmd) "command" <;>
            simp +decide [hpo, git_workdir, logCall]
        by_cases h17 : a = "diff"
        · subst h17
          cases hpo : pstr (paramsOf cmd) "file1" <;>
            cases hpn : pstr (paramsOf cmd) "file2" <;>
            simp +decide [hpo, hpn, logCall]
        by_cases h18 : a = "knowledge_sync"
        · subst h18
          cases hW : W.hasKnowledge <;> simp +decide [hW, logCall]
        by_cases h19 : a = "knowledge_stats"
        · subst h19
          cases hW : W.hasKnowledge <;> simp +decide [hW, logCall]
        by_cases h20 : a = "knowledge_search"
        · subst h20
          cases hW : W.hasKnowledge
          · simp +decide [hW]
          · cases hpo : pstr (paramsOf cmd) "query" <;>
              simp +decide [hW, hpo, logCall]
        simp [h1, h2, h3, h4, h5, h6, h7, h8, h9, h10, h11, h12, h13, h14, h15, h16,
          h17, h18, h19, h20]
      | null => simp [hA]
      | bool b => simp [hA]
      | num r => simp [hA]
      | arr xs => simp [hA]
      | obj kvs => simp [hA]

end SmartShell

namespace SmartShell

/-- A cd that fails leaves the work directory exactly as it was: the
handler assigns the directory only on its success path. -/
theorem cd_fail_workdir (W : World) (path : String) (σ : AgentState)
    (hs : (action_change_directory W path σ).1.success = false) :
    (action_change_directory W path σ).2.workdir = σ.workdir := by
  unfold action_change_directory at hs ⊢
  dsimp only at hs ⊢
  repeat' split
  all_goals (try rfl)
  all_goals simp_all [resOk, Res.success]

/-- C9 — the work-directory frame condition: a dispatched command whose
tree (descending through batch) mentions no cd leaves the work directory
unchanged; a cd whose handler fails leaves it unchanged, both at the
handler and through the dispatcher; only a successful cd can move it. -/
theorem c9_workdir_frame :
    (∀ (f : Nat) (W : World) (cmd : Json) (σ : AgentState),
      cmdNoCd f cmd = true →
      ((execute_command W f cmd σ).2).workdir = σ.workdir)
    ∧ (∀ (W : World) (path : String) (σ : AgentState),
      (action_change_directory W path σ).1.success = false →
      (action_change_directory W path σ).2.workdir = σ.workdir)
    ∧ (∀ (W : World) (f : Nat) (cmd : Json) (σ : AgentState),
      cmd.getKey "action" = some (Json.str "cd") →
      (execute_command W (f + 1) cmd σ).1.success = false →
      ((execute_command W (f + 1) cmd σ).2).workdir = σ.workdir) := by
  refine ⟨exec_workdir_noCd, cd_fail_workdir, ?_⟩
  intro W f cmd σ hA hs
  unfold execute_command at hs ⊢
  dsimp only at hs ⊢
  simp only [hA] at hs ⊢
  try dsimp only at hs ⊢
  simp +decide at hs ⊢
  exact cd_fail_workdir _ _ _ hs

/-- A cd command against a path that does not exist in the example
state. -/
def exCdBad : Json :=
  Json.obj [("action", Json.str "cd"),
            ("params", Json.obj [("path", Json.str "missing")])]

/-- Witness for C9: a shell command (affirmatively confirmed, so it
really runs) leaves the concrete work directory alone; a failing cd, both
at the handler and dispatched, leaves it alone too. -/
theorem c9_workdir_frame_witness :
    (execute_command exW 1 exShellCmd { exState with stdin := ["y"] }).2.workdir
      = exState.workdir
    ∧ (action_change_directory exW "nope" exState).2.workdir = exState.workdir
    ∧ (execute_command exW 1 exCdBad exState).2.workdir = exState.workdir :=
  ⟨c9_workdir_frame.1 1 exW exShellCmd { exState with stdin := ["y"] } rfl,
   c9_workdir_frame.2.1 exW "nope" exState rfl,
   c9_workdir_frame.2.2 exW 0 exCdBad exState rfl rfl⟩

end SmartShell
